import Mathlib

/-!
Verification of the interactive-auth and token-issuance engine implemented in
src/synapse/handlers/auth.py (class AuthHandler).

The shallow embedding below translates the Python source into Lean:

* Python dicts become association lists (`List (key × value)`); lookup,
  insert-or-replace and delete mirror dict indexing, assignment and `del`.
* The process-wide mutable state (`self.sessions`, `self._nonces`, and the
  random-string generator) becomes an explicit state record `St` threaded
  through every operation; the random generator is modelled as a supply of
  strings consumed in order.
* Exceptions become `Except Err` results; since Python mutations performed
  before a raise persist, stateful operations return the state alongside the
  `Except` value.
* External collaborators (user store, bcrypt, captcha service, identity
  handler, configuration) are bundled into an `Env` of function parameters,
  specified only at their interface boundary.
* Python strings are Lean `String`s; `str.startswith` and slicing are
  expressed over the underlying character list.
* Millisecond clock values are `Int` (Python integers are unbounded and the
  code subtracts from them).
-/

namespace SynapseAuth

/-! ### Association-list dictionaries (Python dict model) -/

/-- Dictionary lookup: Python `d.get(k)` / `k in d`. -/
def alookup (k : String) : List (String × α) → Option α
  | [] => none
  | (k', v) :: t => if k' = k then some v else alookup k t

/-- Dictionary write `d[k] = v`: replaces the value at an existing key in
place, otherwise appends the new binding. -/
def ainsert (k : String) (v : α) : List (String × α) → List (String × α)
  | [] => [(k, v)]
  | (k', v') :: t => if k' = k then (k, v) :: t else (k', v') :: ainsert k v t

/-- Dictionary delete `del d[k]` (on dicts, the key occurs at most once). -/
def aerase (k : String) (l : List (String × α)) : List (String × α) :=
  l.filter (fun p => !(p.1 = k : Bool))

/-! ### Character-level string operations (Python `startswith` and slicing) -/

/-- Python `s.startswith(p)`: the characters of p are a prefix of those of s. -/
def strStartsWith (s p : String) : Bool :=
  p.data.isPrefixOf s.data

/-- Python slicing `s[n:]` by character count. -/
def strDrop (s : String) (n : Nat) : String :=
  String.mk (s.data.drop n)

/-! ### Error taxonomy

`LoginError(status, msg, errcode)` and `SynapseError(status, msg)` from
synapse.api.errors, kept with their (status, message, errcode) payloads so
that distinct error kinds of the spec stay distinguishable. -/

/-- Error codes from synapse.api.errors.Codes used by auth.py. -/
inductive Codes where
  | missingParam
  | unrecognized
  | forbidden
  | unauthorized
  | captchaNeeded
deriving DecidableEq

inductive Err where
  | loginError (status : Nat) (msg : String) (errcode : Codes)
  | synapseError (status : Nat) (msg : String)
deriving DecidableEq

/-! ### Data model -/

/-- A per-(user, nonce) record in `self._nonces`: `{"txn_id": ..., "expiry": ...}`. -/
structure NonceRec where
  txn_id : Option String
  expiry : Int
deriving DecidableEq

/-- The nonce table `self._nonces`: user id -> nonce -> record. -/
abbrev Nonces := List (String × List (String × NonceRec))

/-- Success payload of a stage checker, stored in the session's creds map:
a string (password), a boolean (captcha, dummy) or a small dict (email). -/
inductive Payload where
  | str (s : String)
  | bool (b : Bool)
  | dict (d : List (String × String))
deriving DecidableEq

/-- Python truthiness of a checker result, as tested by `if result:`. -/
def truthy : Payload → Bool
  | .str s => !(s = String.mk [] : Bool)
  | .bool b => b
  | .dict d => !d.isEmpty

/-- An auth session dict: always has "id"; "clientdict" and "creds" keys are
added later, hence optional. -/
structure Session where
  id : String
  clientdict : Option (List (String × String))
  creds : Option (List (String × Payload))
deriving DecidableEq

/-- The process-wide mutable state of AuthHandler: `self.sessions`,
`self._nonces`, and the stream of strings the random generator
(stringutils.random_string) will produce next, consumed in order. -/
structure St where
  sessions : List (String × Session)
  nonces : Nonces
  supply : List String
deriving DecidableEq

/-- Captcha provider response: either a normal JSON body or a
PartialDownloadError whose partial body still parses as JSON; the field is
the optional "success" entry of the parsed body. -/
inductive CaptchaResp where
  | json (success : Option Bool)
  | partialDownload (success : Option Bool)

/-- External collaborators and configuration, specified at their interface
boundary only (user store, bcrypt verification, captcha service, identity
handler, hostname and macaroon secret from config, UserID formatting). -/
structure Env where
  server_name : String
  macaroon_secret_key : String
  recaptcha_public_key : String
  get_users_by_id_case_insensitive : String → List (String × String)
  checkpw : String → String → Bool
  captchaPost : String → String → CaptchaResp
  threepid_from_creds : String → Option (List (String × String))
  mkUserId : String → String → String

/-! ### Macaroons (pymacaroons modelled at its interface)

A macaroon is its location/identifier, the key it was signed under (standing
for the signature chain) and its ordered caveat list. A serialized token is
either a well-formed macaroon or malformed data; `deserialize` fails on the
latter, and signature verification checks the signing key. -/

structure Macaroon where
  location : String
  identifier : String
  key : String
  caveats : List String
deriving DecidableEq

def add_first_party_caveat (m : Macaroon) (c : String) : Macaroon :=
  { m with caveats := m.caveats ++ [c] }

inductive SerializedMacaroon where
  | wellFormed (m : Macaroon)
  | malformed
deriving DecidableEq

def serialize (m : Macaroon) : SerializedMacaroon :=
  .wellFormed m

/-- Exceptions arising from pymacaroons deserialization/verification, plus
the ValueError `int()` raises on a malformed time caveat; all are caught
uniformly by the caller. -/
inductive MacErr where
  | deserializeError
  | unmetCaveat
  | invalidSignature
  | valueError
deriving DecidableEq

def deserialize : SerializedMacaroon → Except MacErr Macaroon
  | .wellFormed m => .ok m
  | .malformed => .error .deserializeError

def MACAROON_TYPE_LOGIN_TOKEN : String := "st_login"

/-! ### Nonce store: _prune_nonce, _verify_nonce, make_short_term_token -/

/-- AuthHandler._prune_nonce, called every 60 seconds with the current clock
reading: rebuilds `self._nonces` keeping, per user bucket, the records whose
expiry satisfies the comprehension's filter, and dropping user buckets that
were empty going in. -/
def _prune_nonce (now : Int) (nonces : Nonces) : Nonces :=
  (nonces.filter (fun p => !p.2.isEmpty)).map
    (fun p => (p.1, p.2.filter (fun q => q.2.expiry < now - 60 * 1000)))

/-- AuthHandler._verify_nonce: general-caveat predicate for "nonce = ..."
caveats; matches when the record exists and its txn_id is None or equal to
the presented one, and (on match) binds the presented txn_id in place. -/
def _verify_nonce (caveat : String) (user_id txn_id : String) (nonces : Nonces) :
    Bool × Nonces :=
  let pfx := "nonce = "
  if strStartsWith caveat pfx = false then (false, nonces)
  else
    let user_dict := (alookup user_id nonces).getD []
    let nonce := strDrop caveat pfx.length
    match alookup nonce user_dict with
    | none => (false, nonces)
    | some rec_ =>
      if rec_.txn_id = none ∨ rec_.txn_id = some txn_id then
        (true, ainsert user_id (ainsert nonce { rec_ with txn_id := some txn_id } user_dict) nonces)
      else (false, nonces)

/-- AuthHandler._generate_base_macaroon: location from config, identifier
"key", signed under the configured secret, with the gen and user_id caveats. -/
def _generate_base_macaroon (env : Env) (user_id : String) : Macaroon :=
  let macaroon : Macaroon :=
    { location := env.server_name
      identifier := "key"
      key := env.macaroon_secret_key
      caveats := [] }
  let macaroon := add_first_party_caveat macaroon ("gen = 1")
  add_first_party_caveat macaroon ("user_id = " ++ user_id)

/-- AuthHandler.make_short_term_token: refuses when the nonce record exists
with a bound txn_id, else mints the st_login macaroon with a 60s expiry and
(re)creates the record with no bound transaction. The `setdefault` on the
user bucket is reflected in the state even on the failing path. -/
def make_short_term_token (env : Env) (user_id nonce : String) (now : Int) (st : St) :
    Except Err SerializedMacaroon × St :=
  let user_nonces := (alookup user_id st.nonces).getD []
  let st := { st with nonces := ainsert user_id user_nonces st.nonces }
  if ((alookup nonce user_nonces).getD { txn_id := none, expiry := 0 }).txn_id.isSome then
    (.error (Err.synapseError 400 ("nonce already used")), st)
  else
    let macaroon := _generate_base_macaroon env user_id
    let macaroon := add_first_party_caveat macaroon ("type = " ++ MACAROON_TYPE_LOGIN_TOKEN)
    let expiry := now + 60 * 1000
    let macaroon := add_first_party_caveat macaroon ("time < " ++ toString expiry)
    let macaroon := add_first_party_caveat macaroon ("nonce = " ++ nonce)
    let user_nonces := ainsert nonce { txn_id := none, expiry := expiry } user_nonces
    (.ok (serialize macaroon), { st with nonces := ainsert user_id user_nonces st.nonces })

/-! ### Caveat verification and token login -/

/-- Python `int(str)` on an optionally-signed digit string (the character
list of a Lean String), returning none where int() raises ValueError. -/
def strToNat? (l : List Char) : Option Nat :=
  if l.isEmpty then none
  else if l.all (fun c => c.isDigit) then
    some (l.foldl (fun n c => n * 10 + (c.toNat - ('0').toNat)) 0)
  else none

def strToInt? (s : String) : Option Int :=
  match s.data with
  | [] => none
  | c :: rest =>
    if c = '-' then (strToNat? rest).map (fun v => -(Int.ofNat v))
    else (strToNat? (c :: rest)).map Int.ofNat

/-- AuthHandler._verify_macaroon_expiry: general-caveat predicate for
"time < ..." caveats; `int()` on a non-numeric payload raises (ValueError),
modelled as the error case. -/
def _verify_macaroon_expiry (now : Int) (caveat : String) : Except Unit Bool :=
  let pfx := "time < "
  if strStartsWith caveat pfx = false then .ok false
  else
    match strToInt? (strDrop caveat pfx.length) with
    | none => .error ()
    | some expiry => .ok (now < expiry)

/-- One first-party caveat check of pymacaroons Verifier.verify: met when it
equals one of the satisfy_exact strings, else when some satisfy_general
callback accepts it — here the expiry predicate then the nonce predicate, in
registration order; the nonce predicate may bind a transaction id into the
nonce table. -/
def satisfyCaveat (exacts : List String) (now : Int) (user_id txn_id : String)
    (nonces : Nonces) (c : String) : Except MacErr Bool × Nonces :=
  if c ∈ exacts then (.ok true, nonces)
  else
    match _verify_macaroon_expiry now c with
    | .error _ => (.error .valueError, nonces)
    | .ok true => (.ok true, nonces)
    | .ok false =>
      let r := _verify_nonce c user_id txn_id nonces
      (.ok r.1, r.2)

/-- All caveats of the macaroon checked in order; the first unmet caveat (or
predicate exception) aborts verification, keeping any nonce-table mutation
already performed. -/
def verifyCaveats (exacts : List String) (now : Int) (user_id txn_id : String) :
    List String → Nonces → Except MacErr Unit × Nonces
  | [], nonces => (.ok (), nonces)
  | c :: cs, nonces =>
    match satisfyCaveat exacts now user_id txn_id nonces c with
    | (.error e, nonces') => (.error e, nonces')
    | (.ok false, nonces') => (.error .unmetCaveat, nonces')
    | (.ok true, nonces') => verifyCaveats exacts now user_id txn_id cs nonces'

/-- pymacaroons Verifier.verify on a deserialized macaroon: every caveat must
be met and the macaroon must have been signed under the presented key
(fail-closed, per the caveat-verifier interface). -/
def verifier_verify (m : Macaroon) (key : String) (exacts : List String)
    (now : Int) (user_id txn_id : String) (nonces : Nonces) :
    Except MacErr Bool × Nonces :=
  match verifyCaveats exacts now user_id txn_id m.caveats nonces with
  | (.error e, nonces') => (.error e, nonces')
  | (.ok _, nonces') =>
    if m.key = key then (.ok true, nonces') else (.error .invalidSignature, nonces')

/-- AuthHandler.generate_access_token: base macaroon plus type = access and a
one-hour expiry caveat. -/
def generate_access_token (env : Env) (user_id : String) (now : Int) :
    SerializedMacaroon :=
  let macaroon := _generate_base_macaroon env user_id
  let macaroon := add_first_party_caveat macaroon ("type = access")
  let expiry := now + 60 * 60 * 1000
  let macaroon := add_first_party_caveat macaroon ("time < " ++ toString expiry)
  serialize macaroon

/-- AuthHandler.generate_refresh_token: base macaroon plus type = refresh and
a nonce caveat carrying the output of stringutils.random_string_with_symbols(16),
passed in as rnd (the generator lives outside this core). -/
def generate_refresh_token (env : Env) (user_id : String) (rnd : String) :
    SerializedMacaroon :=
  let m := _generate_base_macaroon env user_id
  let m := add_first_party_caveat m ("type = refresh")
  let m := add_first_party_caveat m ("nonce = " ++ rnd)
  serialize m

/-- AuthHandler._issue_tokens (issue_access_token/issue_refresh_token register
the tokens with the external store, out of scope here, and return them). -/
def _issue_tokens (env : Env) (user_id : String) (now : Int) (rnd : String) :
    String × SerializedMacaroon × SerializedMacaroon :=
  (user_id, generate_access_token env user_id now, generate_refresh_token env user_id rnd)

/-- Result dict of do_short_term_token_login. -/
structure LoginResult where
  user_id : String
  access_token : SerializedMacaroon
  refresh_token : SerializedMacaroon
  home_server : String
deriving DecidableEq

/-- AuthHandler.do_short_term_token_login: deserializes the token, verifies
the exact caveats (gen, type, user_id) and the general predicates (expiry,
nonce) under the configured secret, and on success issues fresh tokens; every
pymacaroons/TypeError/ValueError exception, and a False verification result,
is surfaced as LoginError(403, "Invalid token", FORBIDDEN). -/
def do_short_term_token_login (env : Env) (token : SerializedMacaroon)
    (user_id txn_id : String) (now : Int) (rnd : String) (st : St) :
    Except Err LoginResult × St :=
  let macaroon_exact_caveats :=
    [ "gen = 1"
    , "type = " ++ MACAROON_TYPE_LOGIN_TOKEN
    , "user_id = " ++ user_id ]
  match deserialize token with
  | .error _ => (.error (Err.loginError 403 ("Invalid token") .forbidden), st)
  | .ok macaroon =>
    match verifier_verify macaroon env.macaroon_secret_key macaroon_exact_caveats
        now user_id txn_id st.nonces with
    | (.error _, nonces') =>
      (.error (Err.loginError 403 ("Invalid token") .forbidden), { st with nonces := nonces' })
    | (.ok verified, nonces') =>
      if verified = false then
        (.error (Err.loginError 403 ("Invalid token") .forbidden), { st with nonces := nonces' })
      else
        match _issue_tokens env user_id now rnd with
        | (user_id, access_token, refresh_token) =>
          (.ok { user_id := user_id
                 access_token := access_token
                 refresh_token := refresh_token
                 home_server := env.server_name }, { st with nonces := nonces' })

/-! ### Session store -/

/-- The while loop of _get_session_info: draw random 24-character strings from
the generator until one is not already a session key; returns the fresh id
and the rest of the generator stream, or none if the (infinite in reality)
stream is exhausted. -/
def genFreshId : List String → List (String × Session) → Option (String × List String)
  | [], _ => none
  | x :: xs, sessions =>
    if alookup x sessions = none then some (x, xs) else genFreshId xs sessions

/-- AuthHandler._get_session_info: a session id that is absent, falsy (empty)
or not a current key yields a freshly created session `{"id": sid}` registered
in the store; otherwise the stored session is returned unchanged. -/
def _get_session_info (st : St) (session_id : Option String) :
    Option (Session × St) :=
  let session_id :=
    match session_id with
    | some s => if alookup s st.sessions = none then none else some s
    | none => none
  match session_id with
  | some s =>
    if s = ("") then
      match genFreshId st.supply st.sessions with
      | none => none
      | some (nid, rest) =>
        let sess : Session := { id := nid, clientdict := none, creds := none }
        some (sess, { st with sessions := ainsert nid sess st.sessions, supply := rest })
    else (alookup s st.sessions).map (fun sess => (sess, st))
  | none =>
    match genFreshId st.supply st.sessions with
    | none => none
    | some (nid, rest) =>
      let sess : Session := { id := nid, clientdict := none, creds := none }
      some (sess, { st with sessions := ainsert nid sess st.sessions, supply := rest })

/-- AuthHandler._save_session: upsert keyed by the session's own id. -/
def _save_session (session : Session) (st : St) : St :=
  { st with sessions := ainsert session.id session st.sessions }

/-- AuthHandler._remove_session: delete keyed by the session's own id. -/
def _remove_session (session : Session) (st : St) : St :=
  { st with sessions := aerase session.id st.sessions }

/-! ### Stage checkers -/

/-- Stage-name constants. Modelled from the spec: the values live in
synapse.api.constants.LoginType, which is outside this core; the spec names
the stages password, CAPTCHA (recaptcha), email-identity and dummy. -/
def LoginType.PASSWORD : String := "password"

def LoginType.RECAPTCHA : String := "recaptcha"

def LoginType.EMAIL_IDENTITY : String := "email.identity"

def LoginType.DUMMY : String := "dummy"

/-- The auth sub-object sent by the client: optional session id, stage type
and the stage-specific fields the four checkers read. -/
structure AuthDict where
  session : Option String
  type : Option String
  user : Option String
  password : Option String
  response : Option String
  threepid_creds : Option String
deriving DecidableEq

/-- AuthHandler._find_user_id_and_pwd_hash: case-insensitive lookup through
the external store; empty result or an ambiguous multi-match without an exact
hit is FORBIDDEN; a single match returns the store's canonical id (popitem). -/
def _find_user_id_and_pwd_hash (env : Env) (user_id : String) :
    Except Err (String × String) :=
  let user_infos := env.get_users_by_id_case_insensitive user_id
  match user_infos with
  | [] => .error (Err.loginError 403 (String.mk []) .forbidden)
  | [ui] => .ok ui
  | _ :: _ :: _ =>
    match alookup user_id user_infos with
    | none => .error (Err.loginError 403 (String.mk []) .forbidden)
    | some pwd_hash => .ok (user_id, pwd_hash)

/-- AuthHandler.validate_hash: bcrypt.checkpw through the external primitive. -/
def validate_hash (env : Env) (password stored_hash : String) : Bool :=
  env.checkpw password stored_hash

/-- AuthHandler._check_password: raises LoginError(403, FORBIDDEN) unless the
hash verifies. -/
def _check_password (env : Env) (password stored_hash : String) : Except Err Unit :=
  if validate_hash env password stored_hash = false then
    .error (Err.loginError 403 (String.mk []) .forbidden)
  else .ok ()

/-- AuthHandler._check_password_auth. -/
def _check_password_auth (env : Env) (authdict : AuthDict) (_clientip : String) :
    Except Err Payload :=
  match authdict.user, authdict.password with
  | some user, some password =>
    let user_id :=
      if strStartsWith user ("@") then user else env.mkUserId user env.server_name
    match _find_user_id_and_pwd_hash env user_id with
    | .error e => .error e
    | .ok (user_id, password_hash) =>
      match _check_password env password password_hash with
      | .error e => .error e
      | .ok _ => .ok (.str user_id)
  | _, _ => .error (Err.loginError 400 (String.mk []) .missingParam)

/-- AuthHandler._check_recaptcha: requires the response field, posts it with
the client ip to the external provider (tolerating a partial download whose
body is complete JSON) and succeeds only on a true "success" field. -/
def _check_recaptcha (env : Env) (authdict : AuthDict) (clientip : String) :
    Except Err Payload :=
  match authdict.response with
  | none => .error (Err.loginError 400 ("Captcha response is required") .captchaNeeded)
  | some user_response =>
    let resp_body :=
      match env.captchaPost user_response clientip with
      | .json b => b
      | .partialDownload b => b
    if resp_body = some true then .ok (.bool true)
    else .error (Err.loginError 401 (String.mk []) .unauthorized)

/-- AuthHandler._check_email_identity: requires threepid_creds, resolves them
through the external identity handler, and annotates the result with the
original credentials. -/
def _check_email_identity (env : Env) (authdict : AuthDict) (_clientip : String) :
    Except Err Payload :=
  match authdict.threepid_creds with
  | none => .error (Err.loginError 400 ("Missing threepid_creds") .missingParam)
  | some threepid_creds =>
    match env.threepid_from_creds threepid_creds with
    | none => .error (Err.loginError 401 (String.mk []) .unauthorized)
    | some threepid =>
      if threepid.isEmpty then .error (Err.loginError 401 (String.mk []) .unauthorized)
      else .ok (.dict (ainsert ("threepid_creds") threepid_creds threepid))

/-- AuthHandler._check_dummy_auth: always succeeds with True. -/
def _check_dummy_auth (_authdict : AuthDict) (_clientip : String) :
    Except Err Payload :=
  .ok (.bool true)

/-- The `self.checkers` registry built in AuthHandler.__init__: exactly the
four stage types, anything else is unknown. -/
def checkers (env : Env) (t : String) :
    Option (AuthDict → String → Except Err Payload) :=
  if t = LoginType.PASSWORD then some (_check_password_auth env)
  else if t = LoginType.RECAPTCHA then some (_check_recaptcha env)
  else if t = LoginType.EMAIL_IDENTITY then some (_check_email_identity env)
  else if t = LoginType.DUMMY then some _check_dummy_auth
  else none

/-! ### Auth flow engine -/

/-- The client's request body: the optional auth sub-object plus the remaining
top-level parameters (opaque to the engine). -/
structure ClientDict where
  auth : Option AuthDict
  rest : List (String × String)
deriving DecidableEq

/-- AuthHandler._get_params_recaptcha. -/
def _get_params_recaptcha (env : Env) : List (String × String) :=
  [("public_key", env.recaptcha_public_key)]

/-- The server challenge built by _auth_dict_for_flows (plus the completed
list added by check_auth before an incomplete return). -/
structure Challenge where
  session : String
  flows : List (List String)
  params : List (String × List (String × String))
  completed : Option (List String)
deriving DecidableEq

/-- AuthHandler._auth_dict_for_flows: echoes the flows, the session id and the
per-stage public parameters (captcha site key) for stages named in the flows. -/
def _auth_dict_for_flows (env : Env) (flows : List (List String)) (session : Session) :
    Challenge :=
  let get_params := [(LoginType.RECAPTCHA, _get_params_recaptcha env)]
  let params := flows.foldl
    (fun params f => f.foldl
      (fun params stage =>
        if ((alookup stage get_params).isSome && (alookup stage params).isNone : Bool) then
          ainsert stage ((alookup stage get_params).getD []) params
        else params)
      params)
    []
  { session := session.id, flows := flows, params := params, completed := none }

/-- First component of a check_auth result: the final credentials on
completion, or the challenge dict to return to the client. -/
inductive CheckAuthPayload where
  | challenge (c : Challenge)
  | credsResult (m : List (String × Payload))
deriving DecidableEq

/-- The flow-completion loop ending check_auth: the first flow all of whose
stages are keys of creds completes the attempt, removing the session;
otherwise the challenge is returned with the completed stages listed. -/
def check_auth_flows (env : Env) (flows : List (List String)) (session : Session)
    (creds : List (String × Payload)) (clientrest : List (String × String)) (st : St) :
    Except Err (Bool × CheckAuthPayload × List (String × String)) × St :=
  match flows.find? (fun f => f.all (fun stage => (alookup stage creds).isSome)) with
  | some _ => (.ok (true, .credsResult creds, clientrest), _remove_session session st)
  | none =>
    let ret := { _auth_dict_for_flows env flows session with
                 completed := some (creds.map (fun p => p.1)) }
    (.ok (false, .challenge ret, clientrest), st)

/-- Step 3 of check_auth: a non-empty remaining body is stored onto the
session (in place and via _save_session); otherwise previously saved client
parameters, if any, replace the remaining body for this call. -/
def check_auth_step3 (clientrest0 : List (String × String)) (session : Session)
    (st1 : St) : Session × List (String × String) × St :=
  if clientrest0.isEmpty = false then
    ({ session with clientdict := some clientrest0 }, clientrest0,
      _save_session { session with clientdict := some clientrest0 } st1)
  else
    match session.clientdict with
    | some cd => (session, cd, st1)
    | none => (session, clientrest0, st1)

/-- The creds map is created on the session dict if absent; this mutation of
the stored dict is reflected in the store. -/
def check_auth_ensure_creds (session : Session) (st2 : St) : Session × St :=
  match session.creds with
  | none =>
    ({ session with creds := some [] },
      _save_session { session with creds := some [] } st2)
  | some _ => (session, st2)

/-- Steps 5-7 of check_auth: dispatch the presented stage type to the checker
registry (unknown types raise UNRECOGNIZED), record a truthy result into the
creds map and persist the session, then run the flow-completion loop. -/
def check_auth_dispatch (env : Env) (flows : List (List String)) (ad : AuthDict)
    (clientip : String) (session : Session) (clientrest : List (String × String))
    (st3 : St) : Except Err (Bool × CheckAuthPayload × List (String × String)) × St :=
  let creds := session.creds.getD []
  match ad.type with
  | none => check_auth_flows env flows session creds clientrest st3
  | some t =>
    match checkers env t with
    | none => (.error (Err.loginError 400 (String.mk []) .unrecognized), st3)
    | some chk =>
      match chk ad clientip with
      | .error e => (.error e, st3)
      | .ok result =>
        if truthy result then
          check_auth_flows env flows { session with creds := some (ainsert t result creds) }
            (ainsert t result creds) clientrest
            (_save_session { session with creds := some (ainsert t result creds) } st3)
        else
          check_auth_flows env flows session creds clientrest st3

/-- The body of AuthHandler.check_auth after the session has been resolved
(steps 3-7 of the flow engine): persist or restore the remaining body, answer
with the bare challenge when no auth dict was sent, else ensure the creds map
and dispatch. -/
def check_auth_session (env : Env) (flows : List (List String))
    (authdict : Option AuthDict) (clientrest0 : List (String × String))
    (clientip : String) (session : Session) (st1 : St) :
    Except Err (Bool × CheckAuthPayload × List (String × String)) × St :=
  match check_auth_step3 clientrest0 session st1 with
  | (session, clientrest, st2) =>
    match authdict with
    | none =>
      (.ok (false, .challenge (_auth_dict_for_flows env flows session), clientrest), st2)
    | some ad =>
      match check_auth_ensure_creds session st2 with
      | (session, st3) => check_auth_dispatch env flows ad clientip session clientrest st3

/-- AuthHandler.check_auth: extract the auth sub-object and session id,
resolve or create the session, then run the rest of the flow engine. Returns
none only when the fresh-id stream is exhausted (impossible with a real
random generator). -/
def check_auth (env : Env) (flows : List (List String)) (clientdict : ClientDict)
    (clientip : String) (st : St) :
    Option (Except Err (Bool × CheckAuthPayload × List (String × String)) × St) :=
  let authdict := clientdict.auth
  let sid :=
    match authdict with
    | some ad => ad.session
    | none => none
  match _get_session_info st sid with
  | none => none
  | some (session, st1) =>
    some (check_auth_session env flows authdict clientdict.rest clientip session st1)

/-- The body of AuthHandler.add_oob_auth after the session has been resolved:
ensure the creds map (same in-place mutation as in check_auth), run the one
checker, record a truthy result. -/
def add_oob_auth_session (stagetype : String)
    (chk : AuthDict → String → Except Err Payload) (authdict : AuthDict)
    (clientip : String) (sess : Session) (st1 : St) : Except Err Bool × St :=
  match check_auth_ensure_creds sess st1 with
  | (sess, st2) =>
    let creds := sess.creds.getD []
    match chk authdict clientip with
    | .error e => (.error e, st2)
    | .ok result =>
      if truthy result then
        (.ok true, _save_session { sess with creds := some (ainsert stagetype result creds) } st2)
      else (.ok false, st2)

/-- AuthHandler.add_oob_auth: rejects an unknown stage type or a missing
session id with MISSING_PARAM before touching the store, then runs the one
checker against the resolved session and records a truthy result. -/
def add_oob_auth (env : Env) (stagetype : String) (authdict : AuthDict)
    (clientip : String) (st : St) : Option (Except Err Bool × St) :=
  match checkers env stagetype with
  | none => some (.error (Err.loginError 400 (String.mk []) .missingParam), st)
  | some chk =>
    match authdict.session with
    | none => some (.error (Err.loginError 400 (String.mk []) .missingParam), st)
    | some sid =>
      match _get_session_info st (some sid) with
      | none => none
      | some (sess, st1) =>
        some (add_oob_auth_session stagetype chk authdict clientip sess st1)

/-! ### A concrete environment used to instantiate hypothetical theorems -/

/-- A concrete collaborator environment for evaluating the model on closed
inputs. -/
def envT : Env :=
  { server_name := "example.com"
    macaroon_secret_key := "secret"
    recaptcha_public_key := "pubkey"
    get_users_by_id_case_insensitive := fun _ => []
    checkpw := fun _ _ => false
    captchaPost := fun _ _ => .json none
    threepid_from_creds := fun _ => none
    mkUserId := fun u h => "@" ++ u ++ ":" ++ h }

/-! ### C10: the session-store invariant -/

/-- Every stored key maps to a session whose id field is that key. -/
def sessionsInv (st : St) : Prop :=
  ∀ p ∈ st.sessions, p.2.id = p.1

/-- A concrete environment containing one stored user, for the C9 witness. -/
def envP : Env :=
  { envT with
    get_users_by_id_case_insensitive :=
      fun s => if s = "@a:x" then [("@A:x", "hash1")] else []
    checkpw := fun p h => p = "pw" && h = "hash1" }

/-- An auth dict presenting the dummy stage for session s1, for witnesses. -/
def adDummy : AuthDict :=
  { session := some ("s1"), type := some LoginType.DUMMY,
    user := none, password := none, response := none, threepid_creds := none }

/-- A fresh session under id s1, for witnesses. -/
def sessS1 : Session :=
  { id := "s1", clientdict := none, creds := none }

/-- A state holding only the session s1, for witnesses. -/
def stS1 : St :=
  { sessions := [("s1", sessS1)], nonces := [], supply := [] }

/-! ### C5: unknown stage type -/

/-- An auth dict presenting an unknown stage type for session s1. -/
def adBogus : AuthDict :=
  { session := some ("s1"), type := some ("bogus-stage"),
    user := none, password := none, response := none, threepid_creds := none }

/-- The session s1 carrying saved client parameters and an ensured (empty)
creds map, as left behind by a check_auth call that failed on an unknown
stage type. -/
def sessS1saved : Session :=
  { id := "s1", clientdict := some [("k", "v")], creds := some [] }

/-- The state after that failing check_auth call. -/
def stS1saved : St :=
  { sessions := [("s1", sessS1saved)], nonces := [], supply := [] }

/-- A token signed under a key other than envT's secret, for the C6 witness. -/
def mWrongKey : Macaroon :=
  { location := "example.com", identifier := "key", key := "wrongkey",
    caveats := ["gen = 1"] }

/-- A correctly signed token naming a different user, for the C6 witness. -/
def mWrongUser : Macaroon :=
  { location := "example.com", identifier := "key", key := "secret",
    caveats := ["user_id = " ++ "@b:x"] }

/-- A correctly signed token naming an unclaimed nonce, for the C6 witness. -/
def mBadNonce : Macaroon :=
  { location := "example.com", identifier := "key", key := "secret",
    caveats := ["nonce = " ++ "n9"] }

/-- A correctly signed token whose expiry is in the past, for the C6 witness. -/
def mExpired : Macaroon :=
  { location := "example.com", identifier := "key", key := "secret",
    caveats := ["time < " ++ "50000"] }

/-- The empty handler state, for witnesses. -/
def st0 : St :=
  { sessions := [], nonces := [], supply := [] }

theorem alookup_ainsert_self (k : String) (v : α) (l : List (String × α)) :
    alookup k (ainsert k v l) = some v := by
  induction l with
  | nil => simp [alookup, ainsert]
  | cons p t ih =>
    obtain ⟨k', v'⟩ := p
    by_cases h : k' = k <;> simp [alookup, ainsert, h, ih]

theorem alookup_ainsert_ne (k k' : String) (v : α) (l : List (String × α))
    (h : k' ≠ k) : alookup k' (ainsert k v l) = alookup k' l := by
  induction l with
  | nil => simp [alookup, ainsert, Ne.symm h]
  | cons p t ih =>
    obtain ⟨k0, v0⟩ := p
    by_cases h0 : k0 = k
    · subst h0
      simp [alookup, ainsert, Ne.symm h]
    · simp only [ainsert, if_neg h0]
      by_cases h1 : k0 = k' <;> simp [alookup, h1, ih]

theorem ainsert_self_of_alookup (k : String) (v : α) (l : List (String × α))
    (h : alookup k l = some v) : ainsert k v l = l := by
  induction l with
  | nil => simp [alookup] at h
  | cons p t ih =>
    obtain ⟨k', v'⟩ := p
    by_cases h0 : k' = k
    · subst h0
      simp [alookup] at h
      simp [ainsert, h]
    · simp [alookup, h0] at h
      simp [ainsert, h0, ih h]

theorem alookup_aerase_self (k : String) (l : List (String × α)) :
    alookup k (aerase k l) = none := by
  induction l with
  | nil => simp [aerase, alookup]
  | cons p t ih =>
    obtain ⟨k', v'⟩ := p
    by_cases h : k' = k <;> simp [aerase, alookup, h] at ih ⊢ <;> simpa [aerase] using ih

theorem str_ext {s t : String} (h : s.data = t.data) : s = t := by
  cases s; cases t; exact congrArg String.mk h

theorem strStartsWith_append (p s : String) :
    strStartsWith (p ++ s) p = true := by
  simp only [strStartsWith, String.data_append, List.isPrefixOf_iff_prefix]
  exact List.prefix_append _ _

theorem strDrop_append (p s : String) : strDrop (p ++ s) p.length = s := by
  apply str_ext
  obtain ⟨l⟩ := p
  obtain ⟨m⟩ := s
  show (l ++ m).drop l.length = m
  exact List.drop_left l m

theorem isPrefixOf_eq_false_of_head_ne {p s : List Char} (hp : p ≠ [])
    (h : p.head? ≠ s.head?) : p.isPrefixOf s = false := by
  cases p with
  | nil => exact absurd rfl hp
  | cons a as =>
    cases s with
    | nil => rfl
    | cons b bs =>
      have hab : a ≠ b := by
        intro he
        exact h (by simp [he])
      simp [List.isPrefixOf_cons₂, hab]

theorem strStartsWith_eq_false_of_head_ne {s p : String} (hp : p.data ≠ [])
    (h : p.data.head? ≠ s.data.head?) : strStartsWith s p = false :=
  isPrefixOf_eq_false_of_head_ne hp h

theorem head?_data_append (p v : String) (a : Char)
    (h : p.data.head? = some a) : (p ++ v).data.head? = some a := by
  rw [String.data_append]
  cases hd : p.data with
  | nil => rw [hd] at h; simp at h
  | cons b bs => rw [hd] at h; simp at h; simp [h]

theorem str_ne_of_head_ne {s t : String} (h : s.data.head? ≠ t.data.head?) :
    s ≠ t := by
  intro he
  exact h (he ▸ rfl)

theorem isPrefixOf_append_of_le {p q : List Char} (v : List Char)
    (h : p.length ≤ q.length) : p.isPrefixOf (q ++ v) = p.isPrefixOf q := by
  induction p generalizing q with
  | nil => simp
  | cons a as ih =>
    cases q with
    | nil => simp at h
    | cons b bs =>
      simp only [List.cons_append, List.isPrefixOf_cons₂]
      rw [ih (by simpa using h)]

theorem str_append_ne_of_length_lt {p w : String} (v : String)
    (h : w.data.length < p.data.length) : p ++ v ≠ w := by
  intro he
  have : (p ++ v).data.length = w.data.length := by rw [he]
  rw [String.data_append, List.length_append] at this
  omega

theorem str_append_ne_of_not_isPrefixOf {p w : String} (v : String)
    (h : p.data.isPrefixOf w.data = false) : p ++ v ≠ w := by
  intro he
  have hd : w.data = p.data ++ v.data := by
    rw [← he, String.data_append]
  rw [hd] at h
  rw [isPrefixOf_append_of_le v.data (Nat.le_refl _)] at h
  have : p.data.isPrefixOf p.data = true := by
    simp [List.isPrefixOf_iff_prefix]
  rw [this] at h
  exact Bool.noConfusion h

theorem str_append_cancel {p s t : String} (h : p ++ s = p ++ t) : s = t := by
  apply str_ext
  have : (p ++ s).data = (p ++ t).data := by rw [h]
  rw [String.data_append, String.data_append] at this
  exact List.append_cancel_left this

/-! ### C1: the pruning sweep -/

/-- C1. The claim states that prune removes exactly the records whose expiry
is more than 60 s before now and drops buckets left empty by the sweep. The
code does the opposite on both counts: with now = 100000, the live record n1
(expiry 120000) is removed, the stale record n2 (expiry 30000, more than 60 s
past) is kept, and the bucket of n1, emptied by this very sweep, survives
because the emptiness test looks at the pre-sweep bucket. -/
theorem prune_nonce_keeps_stale_drops_live :
    _prune_nonce 100000
      [("@a:x", [("n1", { txn_id := none, expiry := 120000 })]),
       ("@b:x", [("n2", { txn_id := none, expiry := 30000 })])] =
      [("@a:x", []), ("@b:x", [("n2", { txn_id := none, expiry := 30000 })])] := by
  decide

/-! ### C2: claiming an already-claimed nonce -/

/-- C2 counterexample. The claim says a second makeShortTermToken for the
same (user, nonce) fails with NonceAlreadyUsedError even when no transaction
id has been bound in between. On the code, the second call succeeds: the
guard only fires when txn_id is bound, so the record (still txn_id = None
after the first call) is silently re-claimed with a fresh expiry. -/
theorem make_short_term_token_second_claim_counterexample :
    (make_short_term_token envT ("@a:x") "n1" 2000
        (make_short_term_token envT ("@a:x") "n1" 1000
          { sessions := [], nonces := [], supply := [] }).2).1 =
      .ok (serialize
        { location := "example.com", identifier := "key", key := "secret",
          caveats := ["gen = 1", "user_id = @a:x", "type = st_login",
                      "time < 62000", "nonce = n1"] }) := by
  rfl

/-- C2 amended: makeShortTermToken(userId, nonce) fails with
NonceAlreadyUsedError exactly when the existing record has a bound
transaction id; the failing call leaves the nonce table unchanged; when the
record exists with no bound transaction id, the call succeeds and overwrites
the record with a fresh expiry and no bound transaction. -/
theorem make_short_term_token_spec (env : Env) (u n : String) (now : Int) (st : St) :
    ((make_short_term_token env u n now st).1 =
        .error (Err.synapseError 400 ("nonce already used")) ↔
      ∃ r, alookup n ((alookup u st.nonces).getD []) = some r ∧ r.txn_id.isSome = true)
    ∧ ((∃ r, alookup n ((alookup u st.nonces).getD []) = some r ∧ r.txn_id.isSome = true) →
        (make_short_term_token env u n now st).2 = st)
    ∧ (∀ r, alookup n ((alookup u st.nonces).getD []) = some r → r.txn_id = none →
        (∃ tok, (make_short_term_token env u n now st).1 = .ok tok) ∧
          alookup n ((alookup u (make_short_term_token env u n now st).2.nonces).getD [])
            = some { txn_id := none, expiry := now + 60 * 1000 }) := by
  refine ⟨?_, ?_, ?_⟩
  · constructor
    · intro h
      simp only [make_short_term_token] at h
      split at h
      · rename_i hcond
        cases hb : alookup n ((alookup u st.nonces).getD []) with
        | none => rw [hb] at hcond; simp at hcond
        | some r =>
          rw [hb] at hcond
          exact ⟨r, rfl, by simpa using hcond⟩
      · simp at h
    · rintro ⟨r, hr, hsome⟩
      simp only [make_short_term_token]
      split
      · rfl
      · rename_i hcond
        rw [hr] at hcond
        simp [hsome] at hcond
  · rintro ⟨r, hr0, hsome⟩
    obtain ⟨b, hb⟩ : ∃ b, alookup u st.nonces = some b := by
      cases hu : alookup u st.nonces with
      | none => rw [hu] at hr0; simp [alookup] at hr0
      | some b => exact ⟨b, rfl⟩
    rw [hb] at hr0
    simp only [Option.getD_some] at hr0
    have hins : ainsert u b st.nonces = st.nonces :=
      ainsert_self_of_alookup u b st.nonces hb
    simp [make_short_term_token, hb, hr0, hsome, hins]
  · intro r hr ht
    simp only [make_short_term_token]
    split
    · rename_i hcond
      rw [hr] at hcond
      simp [ht] at hcond
    · refine ⟨⟨_, rfl⟩, ?_⟩
      simp [alookup_ainsert_self]

/-- C2 witness: a record with a bound transaction id makes the call fail and
leaves the table unchanged. -/
theorem make_short_term_token_spec_witness :
    (make_short_term_token envT ("@a:x") "n1" 2000
        { sessions := [], supply := [],
          nonces := [("@a:x", [("n1", { txn_id := some ("tx"), expiry := 61000 })])] }).1 =
      .error (Err.synapseError 400 ("nonce already used"))
    ∧ (make_short_term_token envT ("@a:x") "n1" 2000
        { sessions := [], supply := [],
          nonces := [("@a:x", [("n1", { txn_id := some ("tx"), expiry := 61000 })])] }).2 =
      { sessions := [], supply := [],
        nonces := [("@a:x", [("n1", { txn_id := some ("tx"), expiry := 61000 })])] } := by
  have h := make_short_term_token_spec envT ("@a:x") "n1" 2000
    { sessions := [], supply := [],
      nonces := [("@a:x", [("n1", { txn_id := some ("tx"), expiry := 61000 })])] }
  refine ⟨h.1.mpr ⟨{ txn_id := some ("tx"), expiry := 61000 }, by decide, by decide⟩, ?_⟩
  exact h.2.1 ⟨{ txn_id := some ("tx"), expiry := 61000 }, by decide, by decide⟩

/-! ### C3: matchOrBind -/

/-- C3. The nonce general-caveat predicate _verify_nonce, presented with the
caveat "nonce = n" for user u and transaction t, returns true exactly when a
record for (u, n) exists whose bound transaction id is absent or equal to t;
on success it binds t into the record, so the same transaction id succeeds
again on every retry while any different transaction id fails; on failure the
table is unchanged. -/
theorem verify_nonce_match_or_bind (u n t : String) (nonces : Nonces) :
    ((_verify_nonce ("nonce = " ++ n) u t nonces).1 = true ↔
      ∃ r, alookup n ((alookup u nonces).getD []) = some r ∧
        (r.txn_id = none ∨ r.txn_id = some t))
    ∧ ((_verify_nonce ("nonce = " ++ n) u t nonces).1 = false →
        (_verify_nonce ("nonce = " ++ n) u t nonces).2 = nonces)
    ∧ (∀ r, alookup n ((alookup u nonces).getD []) = some r →
        (r.txn_id = none ∨ r.txn_id = some t) →
        (_verify_nonce ("nonce = " ++ n) u t nonces).1 = true ∧
        alookup n ((alookup u (_verify_nonce ("nonce = " ++ n) u t nonces).2).getD [])
          = some { r with txn_id := some t } ∧
        (_verify_nonce ("nonce = " ++ n) u t
          (_verify_nonce ("nonce = " ++ n) u t nonces).2).1 = true ∧
        ∀ t', t' ≠ t →
          (_verify_nonce ("nonce = " ++ n) u t'
            (_verify_nonce ("nonce = " ++ n) u t nonces).2).1 = false) := by
  have hsw : strStartsWith ("nonce = " ++ n) ("nonce = ") = true :=
    strStartsWith_append _ _
  have hdr : strDrop ("nonce = " ++ n) (String.length ("nonce = ")) = n :=
    strDrop_append _ _
  have hunfold : ∀ t0 nc, _verify_nonce ("nonce = " ++ n) u t0 nc =
      (match alookup n ((alookup u nc).getD []) with
       | none => (false, nc)
       | some rec_ =>
         if rec_.txn_id = none ∨ rec_.txn_id = some t0 then
           (true, ainsert u (ainsert n { rec_ with txn_id := some t0 }
             ((alookup u nc).getD [])) nc)
         else (false, nc)) := by
    intro t0 nc
    simp [_verify_nonce, hsw, hdr]
  have hbind : ∀ t0 nc, (_verify_nonce ("nonce = " ++ n) u t0 nc).1 = true ↔
      ∃ r, alookup n ((alookup u nc).getD []) = some r ∧
        (r.txn_id = none ∨ r.txn_id = some t0) := by
    intro t0 nc
    rw [hunfold t0 nc]
    cases hb : alookup n ((alookup u nc).getD []) with
    | none => simp
    | some r =>
      by_cases hc : r.txn_id = none ∨ r.txn_id = some t0
      · simp only [hc, if_true]
        exact ⟨fun _ => ⟨r, rfl, hc⟩, fun _ => trivial⟩
      · simp only [hc, if_false]
        constructor
        · intro h
          exact Bool.noConfusion h
        · rintro ⟨r', hr', hc'⟩
          cases hr'
          exact absurd hc' hc
  have hstate : ∀ t0 nc r, alookup n ((alookup u nc).getD []) = some r →
      (r.txn_id = none ∨ r.txn_id = some t0) →
      (_verify_nonce ("nonce = " ++ n) u t0 nc).2 =
        ainsert u (ainsert n { r with txn_id := some t0 } ((alookup u nc).getD [])) nc := by
    intro t0 nc r hb hc
    rw [hunfold t0 nc, hb]
    simp [hc]
  refine ⟨hbind t nonces, ?_, ?_⟩
  · intro hfalse
    rw [hunfold t nonces] at hfalse ⊢
    cases hb : alookup n ((alookup u nonces).getD []) with
    | none => rfl
    | some r =>
      rw [hb] at hfalse
      by_cases hc : r.txn_id = none ∨ r.txn_id = some t
      · simp [hc] at hfalse
      · simp [hc]
  · intro r hb hc
    have h1 : (_verify_nonce ("nonce = " ++ n) u t nonces).1 = true :=
      (hbind t nonces).mpr ⟨r, hb, hc⟩
    have h2 := hstate t nonces r hb hc
    have hlook : alookup n ((alookup u (_verify_nonce ("nonce = " ++ n) u t nonces).2).getD [])
        = some { r with txn_id := some t } := by
      rw [h2, alookup_ainsert_self]
      simp [alookup_ainsert_self]
    refine ⟨h1, hlook, ?_, ?_⟩
    · exact (hbind t _).mpr ⟨_, hlook, Or.inr rfl⟩
    · intro t' ht'
      cases hres : (_verify_nonce ("nonce = " ++ n) u t'
          (_verify_nonce ("nonce = " ++ n) u t nonces).2).1 with
      | false => rfl
      | true =>
        exfalso
        obtain ⟨r', hr', hc'⟩ := (hbind t' _).mp hres
        rw [hlook] at hr'
        cases hr'
        rcases hc' with h | h
        · exact Option.noConfusion h
        · injection h with h'
          exact ht' h'.symm

/-- C3 witness: an unbound record matches and binds tx; tx2 then fails. -/
theorem verify_nonce_match_or_bind_witness :
    (_verify_nonce ("nonce = " ++ "n1") "@a:x" "tx"
        [("@a:x", [("n1", { txn_id := none, expiry := 61000 })])]).1 = true ∧
    (_verify_nonce ("nonce = " ++ "n1") "@a:x" "tx2"
        (_verify_nonce ("nonce = " ++ "n1") "@a:x" "tx"
          [("@a:x", [("n1", { txn_id := none, expiry := 61000 })])]).2).1 = false := by
  have h := verify_nonce_match_or_bind ("@a:x") "n1" "tx"
    [("@a:x", [("n1", { txn_id := none, expiry := 61000 })])]
  have h3 := h.2.2 { txn_id := none, expiry := 61000 } (by decide) (Or.inl rfl)
  exact ⟨h3.1, h3.2.2.2 ("tx2") (by decide)⟩

/-! ### C8: session lookup / creation -/

theorem genFreshId_fresh (supply : List String) (sessions : List (String × Session))
    (nid : String) (rest : List String)
    (h : genFreshId supply sessions = some (nid, rest)) : alookup nid sessions = none := by
  induction supply with
  | nil => simp [genFreshId] at h
  | cons x xs ih =>
    simp only [genFreshId] at h
    split at h
    · rename_i hx
      cases h
      exact hx
    · exact ih h

/-- C8. _get_session_info returns the stored session unchanged when given a
non-empty id that is a current key; for an absent, empty, or unknown id it
creates a session under the next generator output not already used as a key
(so the fresh id differs from every stored id) and registers it. -/
theorem get_session_info_spec (st : St) :
    (∀ s sess, s ≠ ("") → alookup s st.sessions = some sess →
      _get_session_info st (some s) = some (sess, st))
    ∧ (∀ sid nid rest,
        (sid = none ∨ sid = some ("") ∨
          ∃ s, sid = some s ∧ alookup s st.sessions = none) →
        genFreshId st.supply st.sessions = some (nid, rest) →
        alookup nid st.sessions = none ∧
        _get_session_info st sid =
          some ({ id := nid, clientdict := none, creds := none },
            { st with
              sessions := ainsert nid { id := nid, clientdict := none, creds := none } st.sessions,
              supply := rest })) := by
  constructor
  · intro s sess hne hsess
    simp [_get_session_info, hsess, hne]
  · intro sid nid rest hcase hgen
    refine ⟨genFreshId_fresh _ _ _ _ hgen, ?_⟩
    rcases hcase with h | h | ⟨s, hs, habs⟩
    · subst h
      simp [_get_session_info, hgen]
    · subst h
      cases hm : alookup ("") st.sessions with
      | none => simp [_get_session_info, hm, hgen]
      | some sess => simp [_get_session_info, hm, hgen]
    · subst hs
      simp [_get_session_info, habs, hgen]

/-- C8 witness: a stored id is returned as-is; an absent id creates and
registers a session under the next fresh generator output. -/
theorem get_session_info_spec_witness :
    _get_session_info
        { sessions := [("abc", { id := "abc", clientdict := none, creds := none })],
          nonces := [], supply := ["fresh1"] } (some ("abc")) =
      some ({ id := "abc", clientdict := none, creds := none },
        { sessions := [("abc", { id := "abc", clientdict := none, creds := none })],
          nonces := [], supply := ["fresh1"] })
    ∧ alookup ("fresh1")
        [("abc", ({ id := "abc", clientdict := none, creds := none } : Session))] = none
    ∧ _get_session_info
        { sessions := [("abc", { id := "abc", clientdict := none, creds := none })],
          nonces := [], supply := ["fresh1"] } none =
      some ({ id := "fresh1", clientdict := none, creds := none },
        { sessions := [("abc", { id := "abc", clientdict := none, creds := none }),
                       ("fresh1", { id := "fresh1", clientdict := none, creds := none })],
          nonces := [], supply := [] }) := by
  have h := get_session_info_spec
    { sessions := [("abc", { id := "abc", clientdict := none, creds := none })],
      nonces := [], supply := ["fresh1"] }
  have h1 := h.1 ("abc") { id := "abc", clientdict := none, creds := none }
    (by decide) (by decide)
  have h2 := h.2 none ("fresh1") [] (Or.inl rfl) (by decide)
  exact ⟨h1, h2.1, h2.2⟩

theorem mem_ainsert {α : Type} {p : String × α} (k : String) (v : α)
    (l : List (String × α)) (h : p ∈ ainsert k v l) : p = (k, v) ∨ p ∈ l := by
  induction l with
  | nil => simpa [ainsert] using h
  | cons q t ih =>
    obtain ⟨k', v'⟩ := q
    by_cases hk : k' = k
    · rw [ainsert, if_pos hk] at h
      rcases List.mem_cons.mp h with h | h
      · exact Or.inl h
      · exact Or.inr (List.mem_cons_of_mem _ h)
    · rw [ainsert, if_neg hk] at h
      rcases List.mem_cons.mp h with h | h
      · exact Or.inr (by simp [h])
      · rcases ih h with h' | h'
        · exact Or.inl h'
        · exact Or.inr (List.mem_cons_of_mem _ h')

theorem sessionsInv_save {st : St} (s : Session) (h : sessionsInv st) :
    sessionsInv (_save_session s st) := by
  intro p hp
  rcases mem_ainsert s.id s st.sessions hp with h' | h'
  · rw [h']
  · exact h p h'

theorem sessionsInv_remove {st : St} (s : Session) (h : sessionsInv st) :
    sessionsInv (_remove_session s st) := by
  intro p hp
  exact h p (List.mem_of_mem_filter hp)

theorem get_session_info_eq_none (st : St) :
    _get_session_info st none =
      (match genFreshId st.supply st.sessions with
       | none => none
       | some (nid, rest) =>
         some (({ id := nid, clientdict := none, creds := none } : Session),
           { st with
             sessions := ainsert nid { id := nid, clientdict := none, creds := none } st.sessions,
             supply := rest })) := by
  simp [_get_session_info]

theorem get_session_info_eq_create (st : St) (s : String)
    (hcase : alookup s st.sessions = none ∨ s = ("")) :
    _get_session_info st (some s) =
      (match genFreshId st.supply st.sessions with
       | none => none
       | some (nid, rest) =>
         some (({ id := nid, clientdict := none, creds := none } : Session),
           { st with
             sessions := ainsert nid { id := nid, clientdict := none, creds := none } st.sessions,
             supply := rest })) := by
  rcases hcase with hm | hs
  · simp [_get_session_info, hm]
  · subst hs
    cases hm : alookup ("") st.sessions with
    | none => simp [_get_session_info, hm]
    | some sess => simp [_get_session_info, hm]

theorem get_session_info_eq_existing (st : St) (s : String) (sess : Session)
    (hne : s ≠ ("")) (hm : alookup s st.sessions = some sess) :
    _get_session_info st (some s) = some (sess, st) := by
  simp [_get_session_info, hm, hne]

theorem sessionsInv_get_session_info {st : St} (sid : Option String)
    (out : Session × St) (h : sessionsInv st)
    (he : _get_session_info st sid = some out) : sessionsInv out.2 := by
  have hcreate : ∀ nid rest, genFreshId st.supply st.sessions = some (nid, rest) →
      sessionsInv { st with
        sessions := ainsert nid { id := nid, clientdict := none, creds := none } st.sessions,
        supply := rest } := by
    intro nid rest _ p hp
    rcases mem_ainsert nid _ st.sessions hp with h' | h'
    · rw [h']
    · exact h p h'
  have hc : ∀ hg : Option (String × List String),
      genFreshId st.supply st.sessions = hg →
      (match hg with
        | none => none
        | some (nid, rest) =>
          some (({ id := nid, clientdict := none, creds := none } : Session),
            { st with
              sessions := ainsert nid { id := nid, clientdict := none, creds := none } st.sessions,
              supply := rest })) = some out → sessionsInv out.2 := by
    intro hg hgen heq
    cases hg with
    | none => exact Option.noConfusion heq
    | some pr =>
      obtain ⟨nid, rest⟩ := pr
      cases heq
      exact hcreate nid rest hgen
  cases sid with
  | none =>
    rw [get_session_info_eq_none] at he
    exact hc _ rfl he
  | some s =>
    cases hm : alookup s st.sessions with
    | none =>
      rw [get_session_info_eq_create st s (Or.inl hm)] at he
      exact hc _ rfl he
    | some sess =>
      by_cases hs : s = ("")
      · rw [get_session_info_eq_create st s (Or.inr hs)] at he
        exact hc _ rfl he
      · rw [get_session_info_eq_existing st s sess hs hm] at he
        cases he
        exact h

theorem sessionsInv_check_auth_flows {st : St} (env : Env) (flows : List (List String))
    (session : Session) (creds : List (String × Payload))
    (clientrest : List (String × String)) (h : sessionsInv st) :
    sessionsInv (check_auth_flows env flows session creds clientrest st).2 := by
  simp only [check_auth_flows]
  cases flows.find? (fun f => f.all (fun stage => (alookup stage creds).isSome)) with
  | none => exact h
  | some f => exact sessionsInv_remove session h

theorem sessionsInv_check_auth_step3 {st1 : St}
    (clientrest0 : List (String × String)) (session : Session)
    (h1 : sessionsInv st1) :
    sessionsInv (check_auth_step3 clientrest0 session st1).2.2 := by
  unfold check_auth_step3
  repeat' split
  all_goals first | exact h1 | exact sessionsInv_save _ h1

theorem sessionsInv_check_auth_ensure_creds {st2 : St} (session : Session)
    (h2 : sessionsInv st2) :
    sessionsInv (check_auth_ensure_creds session st2).2 := by
  unfold check_auth_ensure_creds
  repeat' split
  all_goals first | exact h2 | exact sessionsInv_save _ h2

theorem sessionsInv_check_auth_dispatch {st3 : St} (env : Env)
    (flows : List (List String)) (ad : AuthDict) (clientip : String)
    (session : Session) (clientrest : List (String × String))
    (h3 : sessionsInv st3) :
    sessionsInv (check_auth_dispatch env flows ad clientip session clientrest st3).2 := by
  unfold check_auth_dispatch
  repeat' split
  all_goals
    first
    | exact h3
    | exact sessionsInv_check_auth_flows _ _ _ _ _ h3
    | exact sessionsInv_check_auth_flows _ _ _ _ _ (sessionsInv_save _ h3)

theorem sessionsInv_check_auth_session {st1 : St} (env : Env)
    (flows : List (List String)) (authdict : Option AuthDict)
    (clientrest0 : List (String × String)) (clientip : String) (session : Session)
    (h1 : sessionsInv st1) :
    sessionsInv (check_auth_session env flows authdict clientrest0 clientip session st1).2 := by
  obtain ⟨⟨session', clientrest, st2⟩, h3⟩ :
      ∃ x, check_auth_step3 clientrest0 session st1 = x := ⟨_, rfl⟩
  have h2 : sessionsInv st2 := by
    have hh := sessionsInv_check_auth_step3 clientrest0 session h1
    rw [h3] at hh
    exact hh
  simp only [check_auth_session, h3]
  cases authdict with
  | none => exact h2
  | some ad =>
    obtain ⟨⟨session'', st3⟩, hec⟩ :
        ∃ x, check_auth_ensure_creds session' st2 = x := ⟨_, rfl⟩
    have hst3 : sessionsInv st3 := by
      have hh := sessionsInv_check_auth_ensure_creds session' h2
      rw [hec] at hh
      exact hh
    simp only [hec]
    exact sessionsInv_check_auth_dispatch _ _ _ _ _ _ hst3

theorem sessionsInv_add_oob_auth_session {st1 : St} (stagetype : String)
    (chk : AuthDict → String → Except Err Payload) (authdict : AuthDict)
    (clientip : String) (sess : Session) (h1 : sessionsInv st1) :
    sessionsInv (add_oob_auth_session stagetype chk authdict clientip sess st1).2 := by
  obtain ⟨⟨sess', st2⟩, hec⟩ :
      ∃ x, check_auth_ensure_creds sess st1 = x := ⟨_, rfl⟩
  have h2 : sessionsInv st2 := by
    have hh := sessionsInv_check_auth_ensure_creds sess h1
    rw [hec] at hh
    exact hh
  simp only [add_oob_auth_session, hec]
  repeat' split
  all_goals first | exact h2 | exact sessionsInv_save _ h2

/-- C10. Each stored key maps to a session whose id equals that key, and the
invariant is preserved by every session-store operation and by both engine
entry points that touch the store. -/
theorem session_store_invariant (st : St) (h : sessionsInv st) :
    (∀ sid out, _get_session_info st sid = some out → sessionsInv out.2)
    ∧ (∀ s, sessionsInv (_save_session s st))
    ∧ (∀ s, sessionsInv (_remove_session s st))
    ∧ (∀ env flows clientdict clientip out,
        check_auth env flows clientdict clientip st = some out → sessionsInv out.2)
    ∧ (∀ env stagetype authdict clientip out,
        add_oob_auth env stagetype authdict clientip st = some out → sessionsInv out.2) := by
  refine ⟨fun sid out he => sessionsInv_get_session_info sid out h he,
    fun s => sessionsInv_save s h, fun s => sessionsInv_remove s h, ?_, ?_⟩
  · intro env flows clientdict clientip out he
    simp only [check_auth] at he
    cases hg : _get_session_info st
        (match clientdict.auth with | some ad => ad.session | none => none) with
    | none => rw [hg] at he; exact Option.noConfusion he
    | some pr =>
      obtain ⟨session, st1⟩ := pr
      have h1 : sessionsInv st1 := sessionsInv_get_session_info _ _ h hg
      rw [hg] at he
      cases he
      exact sessionsInv_check_auth_session _ _ _ _ _ _ h1
  · intro env stagetype authdict clientip out he
    cases hck : checkers env stagetype with
    | none =>
      have heval : add_oob_auth env stagetype authdict clientip st =
          some (.error (Err.loginError 400 (String.mk []) .missingParam), st) := by
        simp [add_oob_auth, hck]
      rw [heval] at he
      cases he
      exact h
    | some chk =>
      cases hsid : authdict.session with
      | none =>
        have heval : add_oob_auth env stagetype authdict clientip st =
            some (.error (Err.loginError 400 (String.mk []) .missingParam), st) := by
          simp [add_oob_auth, hck, hsid]
        rw [heval] at he
        cases he
        exact h
      | some sid =>
        cases hg : _get_session_info st (some sid) with
        | none =>
          have heval : add_oob_auth env stagetype authdict clientip st = none := by
            simp [add_oob_auth, hck, hsid, hg]
          rw [heval] at he
          exact Option.noConfusion he
        | some pr =>
          obtain ⟨sess, st1⟩ := pr
          have h1 : sessionsInv st1 := sessionsInv_get_session_info _ _ h hg
          have heval : add_oob_auth env stagetype authdict clientip st =
              some (add_oob_auth_session stagetype chk authdict clientip sess st1) := by
            simp [add_oob_auth, hck, hsid, hg]
          rw [heval] at he
          cases he
          exact sessionsInv_add_oob_auth_session _ _ _ _ _ h1

/-- C10 witness. -/
theorem session_store_invariant_witness :
    sessionsInv (_save_session { id := "x", clientdict := none, creds := none }
      { sessions := [("abc", { id := "abc", clientdict := none, creds := none })],
        nonces := [], supply := [] })
    ∧ sessionsInv (_remove_session { id := "abc", clientdict := none, creds := none }
      { sessions := [("abc", { id := "abc", clientdict := none, creds := none })],
        nonces := [], supply := [] }) := by
  have h := session_store_invariant
    { sessions := [("abc", { id := "abc", clientdict := none, creds := none })],
      nonces := [], supply := [] } (by simp [sessionsInv])
  exact ⟨h.2.1 { id := "x", clientdict := none, creds := none },
    h.2.2.1 { id := "abc", clientdict := none, creds := none }⟩

/-! ### C9: the password checker -/

/-- C9. The password checker demands the user and password fields
(MissingParamError otherwise); the (normalized) user id is resolved through
the external case-insensitive store lookup; no match is ForbiddenError; a
single match is used with its canonical store id; an ambiguous multi-match is
resolved to the exact hit when one exists and rejected otherwise; in every
surviving case the hash must verify, else ForbiddenError. -/
theorem password_checker_spec (env : Env) (ad : AuthDict) (ip : String) :
    ((ad.user = none ∨ ad.password = none) →
      _check_password_auth env ad ip = .error (Err.loginError 400 (String.mk []) .missingParam))
    ∧ (∀ user password, ad.user = some user → ad.password = some password →
        (let uid := if strStartsWith user ("@") then user else env.mkUserId user env.server_name
         let infos := env.get_users_by_id_case_insensitive uid
         (infos = [] →
           _check_password_auth env ad ip = .error (Err.loginError 403 (String.mk []) .forbidden))
         ∧ (∀ k hsh, infos = [(k, hsh)] →
             _check_password_auth env ad ip =
               (if env.checkpw password hsh then .ok (.str k)
                else .error (Err.loginError 403 (String.mk []) .forbidden)))
         ∧ (∀ x y l, infos = x :: y :: l →
             ((∀ hsh, alookup uid infos = some hsh →
               _check_password_auth env ad ip =
                 (if env.checkpw password hsh then .ok (.str uid)
                  else .error (Err.loginError 403 (String.mk []) .forbidden)))
              ∧ (alookup uid infos = none →
                 _check_password_auth env ad ip =
                   .error (Err.loginError 403 (String.mk []) .forbidden)))))) := by
  constructor
  · intro hmiss
    cases hu : ad.user with
    | none => simp [_check_password_auth, hu]
    | some user =>
      cases hp : ad.password with
      | none => simp [_check_password_auth, hu, hp]
      | some password =>
        exfalso
        rcases hmiss with h | h
        · rw [hu] at h; exact Option.noConfusion h
        · rw [hp] at h; exact Option.noConfusion h
  · intro user password hu hp
    refine ⟨?_, ?_, ?_⟩
    · intro hinfos
      simp [_check_password_auth, hu, hp, _find_user_id_and_pwd_hash, hinfos]
    · intro k hsh hinfos
      by_cases hpw : env.checkpw password hsh
      · simp [_check_password_auth, hu, hp, _find_user_id_and_pwd_hash, hinfos,
          _check_password, validate_hash, hpw]
      · simp [_check_password_auth, hu, hp, _find_user_id_and_pwd_hash, hinfos,
          _check_password, validate_hash, hpw]
    · intro x y l hinfos
      constructor
      · intro hsh hlook
        rw [hinfos] at hlook
        by_cases hpw : env.checkpw password hsh
        · simp [_check_password_auth, hu, hp, _find_user_id_and_pwd_hash, hinfos,
            hlook, _check_password, validate_hash, hpw]
        · simp [_check_password_auth, hu, hp, _find_user_id_and_pwd_hash, hinfos,
            hlook, _check_password, validate_hash, hpw]
      · intro hlook
        rw [hinfos] at hlook
        simp [_check_password_auth, hu, hp, _find_user_id_and_pwd_hash, hinfos, hlook]

/-- C9 witness: a missing password is MissingParamError; a single
case-insensitive match logs in with the store's canonical id. -/
theorem password_checker_spec_witness :
    _check_password_auth envP
        { session := none, type := none, user := some ("@a:x"), password := none,
          response := none, threepid_creds := none } "ip" =
      .error (Err.loginError 400 (String.mk []) .missingParam)
    ∧ _check_password_auth envP
        { session := none, type := none, user := some ("@a:x"), password := some ("pw"),
          response := none, threepid_creds := none } "ip" =
      .ok (.str ("@A:x")) := by
  constructor
  · exact (password_checker_spec envP
      { session := none, type := none, user := some ("@a:x"), password := none,
        response := none, threepid_creds := none } "ip").1 (Or.inr rfl)
  · have h := (password_checker_spec envP
      { session := none, type := none, user := some ("@a:x"), password := some ("pw"),
        response := none, threepid_creds := none } "ip").2 ("@a:x") "pw" rfl rfl
    have h2 := h.2.1 ("@A:x") "hash1" (by decide)
    rw [h2]
    rfl

/-! ### C7: caveat sequences of issued tokens -/

/-- C7. An access token is minted with exactly the caveats gen = 1,
user_id, type = access, time < now + 3600000 ms, in that order; a refresh
token with gen = 1, user_id, type = refresh and a nonce caveat carrying the
16-character random string (the hypothesis records the length of the
random_string_with_symbols(16) output it models) and no time caveat; two
refresh tokens for the same user differ whenever their nonces differ. -/
theorem token_caveat_shapes (env : Env) (u : String) (now : Int) (rnd : String)
    (hrnd : rnd.length = 16) :
    generate_access_token env u now = serialize
      { location := env.server_name, identifier := "key", key := env.macaroon_secret_key,
        caveats := ["gen = 1", "user_id = " ++ u, "type = access",
                    "time < " ++ toString (now + 60 * 60 * 1000)] }
    ∧ generate_refresh_token env u rnd = serialize
      { location := env.server_name, identifier := "key", key := env.macaroon_secret_key,
        caveats := ["gen = 1", "user_id = " ++ u, "type = refresh", "nonce = " ++ rnd] }
    ∧ (∀ c ∈ (["gen = 1", "user_id = " ++ u, "type = refresh", "nonce = " ++ rnd] : List String),
        strStartsWith c ("time < ") = false)
    ∧ (∀ rnd', rnd ≠ rnd' →
        generate_refresh_token env u rnd ≠ generate_refresh_token env u rnd') := by
  refine ⟨rfl, rfl, ?_, ?_⟩
  · intro c hc
    simp only [List.mem_cons, List.not_mem_nil, or_false] at hc
    rcases hc with rfl | rfl | rfl | rfl
    · decide
    · have h1 : (("user_id = " : String) ++ u).data.head? = some 'u' :=
        head?_data_append ("user_id = ") u 'u' rfl
      exact strStartsWith_eq_false_of_head_ne (by decide) (by rw [h1]; decide)
    · decide
    · have h1 : (("nonce = " : String) ++ rnd).data.head? = some 'n' :=
        head?_data_append ("nonce = ") rnd 'n' rfl
      exact strStartsWith_eq_false_of_head_ne (by decide) (by rw [h1]; decide)
  · intro rnd' hne heq
    injection heq with hm
    injection hm with h1 h2 h3 hcav
    injection hcav with c1 hcav
    injection hcav with c2 hcav
    injection hcav with c3 hcav
    injection hcav with c4 hcav
    exact hne (str_append_cancel c4)

/-- C7 witness at a concrete user, clock value and pair of distinct nonces. -/
theorem token_caveat_shapes_witness :
    generate_access_token envT ("@a:x") 1000 = serialize
      { location := envT.server_name, identifier := "key", key := envT.macaroon_secret_key,
        caveats := ["gen = 1", "user_id = " ++ "@a:x", "type = access",
                    "time < " ++ toString ((1000 : Int) + 60 * 60 * 1000)] }
    ∧ strStartsWith ("nonce = " ++ "RNDSTR0123456789") ("time < ") = false
    ∧ generate_refresh_token envT ("@a:x") "RNDSTR0123456789" ≠
        generate_refresh_token envT ("@a:x") "ANOTHERRND123456" := by
  have h := token_caveat_shapes envT ("@a:x") 1000 ("RNDSTR0123456789") (by decide)
  refine ⟨h.1, ?_, h.2.2.2 ("ANOTHERRND123456") (by decide)⟩
  exact h.2.2.1 ("nonce = " ++ "RNDSTR0123456789") (by simp)

/-! ### C6: short-term-token login failure modes -/

/-- Every error exit of do_short_term_token_login carries the same
LoginError(403, "Invalid token", FORBIDDEN). -/
theorem do_stl_error_uniform (env : Env) (token : SerializedMacaroon)
    (u txn : String) (now : Int) (rnd : String) (st : St) (e : Err) (st' : St)
    (he : do_short_term_token_login env token u txn now rnd st = (.error e, st')) :
    e = Err.loginError 403 ("Invalid token") .forbidden := by
  cases htok : deserialize token with
  | error me =>
    simp only [do_short_term_token_login, htok] at he
    rw [Prod.ext_iff] at he
    injection he.1 with h1
    exact h1.symm
  | ok m =>
    obtain ⟨⟨vres, nonces'⟩, hv⟩ :
        ∃ x, verifier_verify m env.macaroon_secret_key
          ["gen = 1", "type = " ++ MACAROON_TYPE_LOGIN_TOKEN, "user_id = " ++ u]
          now u txn st.nonces = x := ⟨_, rfl⟩
    cases vres with
    | error me =>
      simp only [do_short_term_token_login, htok, hv] at he
      rw [Prod.ext_iff] at he
      injection he.1 with h1
      exact h1.symm
    | ok verified =>
      cases verified with
      | false =>
        simp only [do_short_term_token_login, htok, hv] at he
        rw [Prod.ext_iff] at he
        injection he.1 with h1
        exact h1.symm
      | true =>
        simp only [do_short_term_token_login, htok, hv] at he
        rw [Prod.ext_iff] at he
        exact absurd he.1 (by simp)

/-- An element of the caveat list that is unmet in every table satisfying the
invariant P makes the caveat sweep fail, provided P is preserved by each
caveat check. -/
theorem verifyCaveats_error_of_unmet (exacts : List String) (now : Int)
    (u txn : String) (P : Nonces → Prop) (c : String) (caveats : List String)
    (hc : c ∈ caveats)
    (hpres : ∀ nc c', P nc → P (satisfyCaveat exacts now u txn nc c').2)
    (hfail : ∀ nc, P nc → (satisfyCaveat exacts now u txn nc c).1 = .ok false) :
    ∀ nc, P nc → ∃ e nc', verifyCaveats exacts now u txn caveats nc = (.error e, nc') := by
  induction caveats with
  | nil => cases hc
  | cons c0 cs ih =>
    intro nc hP
    obtain ⟨⟨r, nc1⟩, hs⟩ : ∃ x, satisfyCaveat exacts now u txn nc c0 = x := ⟨_, rfl⟩
    rcases List.mem_cons.mp hc with rfl | hmem
    · have h0 := hfail nc hP
      rw [hs] at h0
      simp only at h0
      subst h0
      simp only [verifyCaveats, hs]
      exact ⟨.unmetCaveat, nc1, rfl⟩
    · simp only [verifyCaveats, hs]
      cases r with
      | error e => exact ⟨e, nc1, rfl⟩
      | ok b =>
        cases b with
        | false => exact ⟨.unmetCaveat, nc1, rfl⟩
        | true =>
          have hP1 : P nc1 := by
            have hh := hpres nc c0 hP
            rw [hs] at hh
            exact hh
          exact ih hmem nc1 hP1

/-- A failing caveat sweep surfaces as the uniform invalid-token error. -/
theorem do_stl_invalid_of_caveats_error (env : Env) (m : Macaroon)
    (u txn : String) (now : Int) (rnd : String) (st : St)
    (h : ∃ e nc', verifyCaveats
      ["gen = 1", "type = " ++ MACAROON_TYPE_LOGIN_TOKEN, "user_id = " ++ u]
      now u txn m.caveats st.nonces = (.error e, nc')) :
    (do_short_term_token_login env (.wellFormed m) u txn now rnd st).1 =
      .error (Err.loginError 403 ("Invalid token") .forbidden) := by
  obtain ⟨e, nc', hvc⟩ := h
  simp only [do_short_term_token_login, deserialize, verifier_verify, hvc]

theorem verify_nonce_non_nonce_caveat {c : String} (u txn : String) (nc : Nonces)
    (hsw : strStartsWith c ("nonce = ") = false) :
    _verify_nonce c u txn nc = (false, nc) := by
  simp [_verify_nonce, hsw]

/-- The nonce predicate can only rebind an existing record, never create
one, so a nonce absent for u stays absent. -/
theorem verify_nonce_preserves_absent (c : String) (u txn n : String) (nc : Nonces)
    (h : alookup n ((alookup u nc).getD []) = none) :
    alookup n ((alookup u (_verify_nonce c u txn nc).2).getD []) = none := by
  cases hsw : strStartsWith c ("nonce = ") with
  | false => rw [verify_nonce_non_nonce_caveat u txn nc hsw]; exact h
  | true =>
    simp only [_verify_nonce, hsw]
    cases hlk : alookup (strDrop c (String.length ("nonce = ")))
        ((alookup u nc).getD []) with
    | none => simp only [hlk]; exact h
    | some rec_ =>
      simp only [hlk]
      by_cases hcnd : rec_.txn_id = none ∨ rec_.txn_id = some txn
      · rw [if_pos hcnd]
        have hne : n ≠ strDrop c (String.length ("nonce = ")) := by
          intro hEq
          rw [hEq] at h
          rw [h] at hlk
          exact Option.noConfusion hlk
        rw [if_neg (fun hh => Bool.noConfusion hh : ¬(true = false))]
        simp only [alookup_ainsert_self, Option.getD_some]
        rw [alookup_ainsert_ne _ _ _ _ hne]
        exact h
      · rw [if_neg hcnd]
        exact h

/-- The nonce-absence invariant: no caveat check can create a record, so a
nonce never claimed for u stays absent through the sweep. -/
theorem satisfyCaveat_preserves_absent (exacts : List String) (now : Int)
    (u txn n : String) (nc : Nonces) (c : String)
    (h : alookup n ((alookup u nc).getD []) = none) :
    alookup n ((alookup u (satisfyCaveat exacts now u txn nc c).2).getD []) = none := by
  by_cases hmem : c ∈ exacts
  · simpa [satisfyCaveat, hmem] using h
  · cases hexp : _verify_macaroon_expiry now c with
    | error me => simpa [satisfyCaveat, hmem, hexp] using h
    | ok b =>
      cases b with
      | true => simpa [satisfyCaveat, hmem, hexp] using h
      | false =>
        have hh := verify_nonce_preserves_absent c u txn n nc h
        simpa [satisfyCaveat, hmem, hexp] using hh

/-- A caveat outside the exact list that both general predicates reject is
unmet. -/
theorem satisfyCaveat_unmet (exacts : List String) (now : Int) (u txn : String)
    (nc : Nonces) (c : String) (hmem : c ∉ exacts)
    (hexp : _verify_macaroon_expiry now c = .ok false)
    (hvn : (_verify_nonce c u txn nc).1 = false) :
    (satisfyCaveat exacts now u txn nc c).1 = .ok false := by
  simp [satisfyCaveat, hmem, hexp, hvn]

theorem verify_nonce_absent (u txn n : String) (nc : Nonces)
    (h : alookup n ((alookup u nc).getD []) = none) :
    _verify_nonce ("nonce = " ++ n) u txn nc = (false, nc) := by
  have hsw := strStartsWith_append ("nonce = ") n
  have hdr := strDrop_append ("nonce = ") n
  simp [_verify_nonce, hsw, hdr, h]

/-- Signature check failure (wrong signing key) surfaces as the uniform
invalid-token error whatever the caveats do. -/
theorem do_stl_invalid_of_wrong_key (env : Env) (m : Macaroon)
    (u txn : String) (now : Int) (rnd : String) (st : St)
    (hk : m.key ≠ env.macaroon_secret_key) :
    (do_short_term_token_login env (.wellFormed m) u txn now rnd st).1 =
      .error (Err.loginError 403 ("Invalid token") .forbidden) := by
  obtain ⟨⟨r, nc'⟩, hvc⟩ : ∃ x, verifyCaveats
      ["gen = 1", "type = " ++ MACAROON_TYPE_LOGIN_TOKEN, "user_id = " ++ u]
      now u txn m.caveats st.nonces = x := ⟨_, rfl⟩
  cases r with
  | error e => exact do_stl_invalid_of_caveats_error env m u txn now rnd st ⟨e, nc', hvc⟩
  | ok unit_ =>
    simp [do_short_term_token_login, deserialize, verifier_verify, hvc, hk]

/-- C6. Short-term-token login fails with the single uniform
LoginError(403, "Invalid token", FORBIDDEN) and with no other error kind:
every error exit carries exactly that error, and it is produced for a
malformed token, a token signed under a key other than the configured
macaroon secret, a token whose user_id caveat names a different user than
expected, a token whose nonce caveat names a nonce never claimed for the
expected user, and an expired token. -/
theorem short_term_token_login_invalid (env : Env) (u txn : String) (now : Int)
    (rnd : String) (st : St) :
    (∀ token e st', do_short_term_token_login env token u txn now rnd st = (.error e, st') →
        e = Err.loginError 403 ("Invalid token") .forbidden)
    ∧ (do_short_term_token_login env .malformed u txn now rnd st).1 =
        .error (Err.loginError 403 ("Invalid token") .forbidden)
    ∧ (∀ m : Macaroon, m.key ≠ env.macaroon_secret_key →
        (do_short_term_token_login env (.wellFormed m) u txn now rnd st).1 =
          .error (Err.loginError 403 ("Invalid token") .forbidden))
    ∧ (∀ m v, ("user_id = " ++ v) ∈ m.caveats → v ≠ u →
        (do_short_term_token_login env (.wellFormed m) u txn now rnd st).1 =
          .error (Err.loginError 403 ("Invalid token") .forbidden))
    ∧ (∀ m n, ("nonce = " ++ n) ∈ m.caveats →
        alookup n ((alookup u st.nonces).getD []) = none →
        (do_short_term_token_login env (.wellFormed m) u txn now rnd st).1 =
          .error (Err.loginError 403 ("Invalid token") .forbidden))
    ∧ (∀ m x e, ("time < " ++ x) ∈ m.caveats → strToInt? x = some e → e ≤ now →
        (do_short_term_token_login env (.wellFormed m) u txn now rnd st).1 =
          .error (Err.loginError 403 ("Invalid token") .forbidden)) := by
  refine ⟨fun token e st' he => do_stl_error_uniform env token u txn now rnd st e st' he,
    rfl,
    fun m hk => do_stl_invalid_of_wrong_key env m u txn now rnd st hk,
    ?_, ?_, ?_⟩
  · intro m v hmemc hne
    apply do_stl_invalid_of_caveats_error
    have hmem : ("user_id = " ++ v) ∉
        ["gen = 1", "type = " ++ MACAROON_TYPE_LOGIN_TOKEN, "user_id = " ++ u] := by
      intro hmem
      simp only [List.mem_cons, List.not_mem_nil, or_false] at hmem
      rcases hmem with h1 | h2 | h3
      · exact (str_append_ne_of_length_lt v (by decide)) h1
      · exact (str_append_ne_of_not_isPrefixOf v (by decide)) h2
      · exact hne (str_append_cancel h3)
    have hswt : strStartsWith ("user_id = " ++ v) ("time < ") = false :=
      strStartsWith_eq_false_of_head_ne (by decide)
        (by rw [head?_data_append ("user_id = ") v 'u' rfl]; decide)
    have hswn : strStartsWith ("user_id = " ++ v) ("nonce = ") = false :=
      strStartsWith_eq_false_of_head_ne (by decide)
        (by rw [head?_data_append ("user_id = ") v 'u' rfl]; decide)
    have hexp : _verify_macaroon_expiry now ("user_id = " ++ v) = .ok false := by
      simp [_verify_macaroon_expiry, hswt]
    exact verifyCaveats_error_of_unmet _ now u txn (fun _ => True) _ m.caveats hmemc
      (fun _ _ _ => trivial)
      (fun nc _ => satisfyCaveat_unmet _ now u txn nc _ hmem hexp
        (by rw [verify_nonce_non_nonce_caveat u txn nc hswn]))
      st.nonces trivial
  · intro m n hmemc habs
    apply do_stl_invalid_of_caveats_error
    have hmem : ("nonce = " ++ n) ∉
        ["gen = 1", "type = " ++ MACAROON_TYPE_LOGIN_TOKEN, "user_id = " ++ u] := by
      intro hmem
      simp only [List.mem_cons, List.not_mem_nil, or_false] at hmem
      rcases hmem with h1 | h2 | h3
      · exact (str_append_ne_of_not_isPrefixOf n (by decide)) h1
      · exact (str_append_ne_of_not_isPrefixOf n (by decide)) h2
      · refine (str_ne_of_head_ne ?_) h3
        rw [head?_data_append ("nonce = ") n 'n' rfl,
          head?_data_append ("user_id = ") u 'u' rfl]
        decide
    have hswt : strStartsWith ("nonce = " ++ n) ("time < ") = false :=
      strStartsWith_eq_false_of_head_ne (by decide)
        (by rw [head?_data_append ("nonce = ") n 'n' rfl]; decide)
    have hexp : _verify_macaroon_expiry now ("nonce = " ++ n) = .ok false := by
      simp [_verify_macaroon_expiry, hswt]
    exact verifyCaveats_error_of_unmet _ now u txn
      (fun nc => alookup n ((alookup u nc).getD []) = none) _ m.caveats hmemc
      (fun nc c' hP => satisfyCaveat_preserves_absent _ now u txn n nc c' hP)
      (fun nc hP => satisfyCaveat_unmet _ now u txn nc _ hmem hexp
        (by rw [verify_nonce_absent u txn n nc hP]))
      st.nonces habs
  · intro m x e hmemc hx hle
    apply do_stl_invalid_of_caveats_error
    have hmem : ("time < " ++ x) ∉
        ["gen = 1", "type = " ++ MACAROON_TYPE_LOGIN_TOKEN, "user_id = " ++ u] := by
      intro hmem
      simp only [List.mem_cons, List.not_mem_nil, or_false] at hmem
      rcases hmem with h1 | h2 | h3
      · exact (str_append_ne_of_not_isPrefixOf x (by decide)) h1
      · exact (str_append_ne_of_not_isPrefixOf x (by decide)) h2
      · refine (str_ne_of_head_ne ?_) h3
        rw [head?_data_append ("time < ") x 't' rfl,
          head?_data_append ("user_id = ") u 'u' rfl]
        decide
    have hswn : strStartsWith ("time < " ++ x) ("nonce = ") = false :=
      strStartsWith_eq_false_of_head_ne (by decide)
        (by rw [head?_data_append ("time < ") x 't' rfl]; decide)
    have hlt : ¬(now < e) := not_lt.mpr hle
    have hexp : _verify_macaroon_expiry now ("time < " ++ x) = .ok false := by
      have hsw := strStartsWith_append ("time < ") x
      have hdr := strDrop_append ("time < ") x
      simp [_verify_macaroon_expiry, hsw, hdr, hx, hlt]
    exact verifyCaveats_error_of_unmet _ now u txn (fun _ => True) _ m.caveats hmemc
      (fun _ _ _ => trivial)
      (fun nc _ => satisfyCaveat_unmet _ now u txn nc _ hmem hexp
        (by rw [verify_nonce_non_nonce_caveat u txn nc hswn]))
      st.nonces trivial

/-! ### C4: flow completion -/

/-- The dispatch tail of check_auth with a successful truthy checker result:
the attempt completes exactly when some flow's stages are all keys of the
updated creds map, the completing call removes the session, and an
incomplete call persists the accumulated creds under the session id. -/
theorem check_auth_dispatch_spec (env : Env) (flows : List (List String))
    (ad : AuthDict) (ip : String) (sess2 : Session)
    (crest : List (String × String)) (st3 : St) (sid t : String)
    (chk : AuthDict → String → Except Err Payload) (r : Payload)
    (hid2 : sess2.id = sid) (hlk : alookup sid st3.sessions = some sess2)
    (hty : ad.type = some t) (hchk : checkers env t = some chk)
    (hr : chk ad ip = .ok r) (htr : truthy r = true) :
    ∃ authed payload rest' st',
      check_auth_dispatch env flows ad ip sess2 crest st3 =
        (.ok (authed, payload, rest'), st')
      ∧ ((authed = true) ↔ ∃ f ∈ flows, ∀ stage ∈ f,
          (alookup stage (ainsert t r (sess2.creds.getD []))).isSome = true)
      ∧ (authed = true → payload = .credsResult (ainsert t r (sess2.creds.getD []))
          ∧ alookup sid st'.sessions = none)
      ∧ (authed = false → ∃ sess', alookup sid st'.sessions = some sess'
          ∧ sess'.creds = some (ainsert t r (sess2.creds.getD []))) := by
  have hunf : check_auth_dispatch env flows ad ip sess2 crest st3 =
      check_auth_flows env flows
        { sess2 with creds := some (ainsert t r (sess2.creds.getD [])) }
        (ainsert t r (sess2.creds.getD [])) crest
        (_save_session { sess2 with creds := some (ainsert t r (sess2.creds.getD [])) } st3) := by
    simp [check_auth_dispatch, hty, hchk, hr, htr]
  cases hfind : flows.find? (fun f => f.all (fun stage =>
      (alookup stage (ainsert t r (sess2.creds.getD []))).isSome)) with
  | some f0 =>
    refine ⟨true, .credsResult (ainsert t r (sess2.creds.getD [])), crest,
      _remove_session { sess2 with creds := some (ainsert t r (sess2.creds.getD [])) }
        (_save_session { sess2 with creds := some (ainsert t r (sess2.creds.getD [])) } st3),
      ?_, ?_, ?_, ?_⟩
    · rw [hunf]
      simp [check_auth_flows, hfind]
    · have hs : (flows.find? (fun f => f.all (fun stage =>
          (alookup stage (ainsert t r (sess2.creds.getD []))).isSome))).isSome = true := by
        rw [hfind]
        rfl
      obtain ⟨f1, hf1, hp1⟩ := List.find?_isSome.mp hs
      exact ⟨fun _ => ⟨f1, hf1, fun stage hst => List.all_eq_true.mp hp1 stage hst⟩,
        fun _ => rfl⟩
    · intro _
      refine ⟨rfl, ?_⟩
      simp only [_remove_session]
      rw [show ({ sess2 with creds := some (ainsert t r (sess2.creds.getD [])) } : Session).id
          = sid from hid2]
      exact alookup_aerase_self _ _
    · intro hfalse
      exact Bool.noConfusion hfalse
  | none =>
    refine ⟨false,
      .challenge { _auth_dict_for_flows env flows
          { sess2 with creds := some (ainsert t r (sess2.creds.getD [])) } with
        completed := some ((ainsert t r (sess2.creds.getD [])).map (fun p => p.1)) },
      crest,
      _save_session { sess2 with creds := some (ainsert t r (sess2.creds.getD [])) } st3,
      ?_, ?_, ?_, ?_⟩
    · rw [hunf]
      simp [check_auth_flows, hfind]
    · constructor
      · intro hh
        exact Bool.noConfusion hh
      · rintro ⟨f1, hf1, hall⟩
        exact absurd (List.all_eq_true.mpr hall) (List.find?_eq_none.mp hfind f1 hf1)
    · intro hh
      exact Bool.noConfusion hh
    · intro _
      refine ⟨{ sess2 with creds := some (ainsert t r (sess2.creds.getD [])) }, ?_, rfl⟩
      simp only [_save_session]
      rw [show ({ sess2 with creds := some (ainsert t r (sess2.creds.getD [])) } : Session).id
          = sid from hid2]
      exact alookup_ainsert_self _ _ _

/-- The creds-ensuring step does not change which stages are keys of the
creds map, so the dispatch specification lifts over it. -/
theorem check_auth_after_step3_spec (env : Env) (flows : List (List String))
    (ad : AuthDict) (ip : String) (sess1 : Session)
    (crest : List (String × String)) (st2 : St) (sid t : String)
    (chk : AuthDict → String → Except Err Payload) (r : Payload)
    (hid1 : sess1.id = sid) (hlk : alookup sid st2.sessions = some sess1)
    (hty : ad.type = some t) (hchk : checkers env t = some chk)
    (hr : chk ad ip = .ok r) (htr : truthy r = true) :
    ∃ authed payload rest' st',
      (match check_auth_ensure_creds sess1 st2 with
       | (session, st3) => check_auth_dispatch env flows ad ip session crest st3) =
        (.ok (authed, payload, rest'), st')
      ∧ ((authed = true) ↔ ∃ f ∈ flows, ∀ stage ∈ f,
          (alookup stage (ainsert t r (sess1.creds.getD []))).isSome = true)
      ∧ (authed = true → payload = .credsResult (ainsert t r (sess1.creds.getD []))
          ∧ alookup sid st'.sessions = none)
      ∧ (authed = false → ∃ sess', alookup sid st'.sessions = some sess'
          ∧ sess'.creds = some (ainsert t r (sess1.creds.getD []))) := by
  cases hc1 : sess1.creds with
  | none =>
    have hec : check_auth_ensure_creds sess1 st2 =
        ({ sess1 with creds := some [] },
          _save_session { sess1 with creds := some [] } st2) := by
      simp [check_auth_ensure_creds, hc1]
    have hlk2 : alookup sid (_save_session { sess1 with creds := some [] } st2).sessions
        = some { sess1 with creds := some [] } := by
      simp only [_save_session]
      rw [show ({ sess1 with creds := some [] } : Session).id = sid from hid1]
      exact alookup_ainsert_self _ _ _
    obtain ⟨authed, payload, rest', st', heq, hiff, hcompl, hincompl⟩ :=
      check_auth_dispatch_spec env flows ad ip { sess1 with creds := some [] }
        crest (_save_session { sess1 with creds := some [] } st2) sid t chk r
        hid1 hlk2 hty hchk hr htr
    rw [hec]
    refine ⟨authed, payload, rest', st', heq, ?_, ?_, ?_⟩
    · simpa [hc1] using hiff
    · simpa [hc1] using hcompl
    · simpa [hc1] using hincompl
  | some c =>
    have hec : check_auth_ensure_creds sess1 st2 = (sess1, st2) := by
      simp [check_auth_ensure_creds, hc1]
    rw [hec, ← hc1]
    exact check_auth_dispatch_spec env flows ad ip sess1 crest st2 sid t chk r
      hid1 hlk hty hchk hr htr

/-- C4. A check_auth call presenting a stage whose checker succeeds with a
truthy result returns authenticated = true exactly when some flow of the
declared flow set has all its stage names among the keys of the session's
credentials after this call's stage is recorded (a pure set-membership
condition, independent of the order in which earlier calls filled the
credentials); the completing call returns the accumulated credentials and
removes the session from the store before returning, while an incomplete
call leaves the session stored with the accumulated credentials. -/
theorem check_auth_complete_iff (env : Env) (flows : List (List String))
    (ad : AuthDict) (rest : List (String × String)) (ip : String) (st : St)
    (sid : String) (sess : Session) (t : String)
    (chk : AuthDict → String → Except Err Payload) (r : Payload)
    (hsid : ad.session = some sid) (hne : sid ≠ (""))
    (hsess : alookup sid st.sessions = some sess) (hid : sess.id = sid)
    (hty : ad.type = some t) (hchk : checkers env t = some chk)
    (hr : chk ad ip = .ok r) (htr : truthy r = true) :
    ∃ authed payload rest' st',
      check_auth env flows { auth := some ad, rest := rest } ip st =
        some (.ok (authed, payload, rest'), st')
      ∧ ((authed = true) ↔ ∃ f ∈ flows, ∀ stage ∈ f,
          (alookup stage (ainsert t r (sess.creds.getD []))).isSome = true)
      ∧ (authed = true → payload = .credsResult (ainsert t r (sess.creds.getD []))
          ∧ alookup sid st'.sessions = none)
      ∧ (authed = false → ∃ sess', alookup sid st'.sessions = some sess'
          ∧ sess'.creds = some (ainsert t r (sess.creds.getD []))) := by
  have hgsi : _get_session_info st ad.session = some (sess, st) := by
    rw [hsid]
    exact get_session_info_eq_existing st sid sess hne hsess
  have hca : check_auth env flows { auth := some ad, rest := rest } ip st =
      some (check_auth_session env flows (some ad) rest ip sess st) := by
    simp [check_auth, hgsi]
  by_cases hrest : rest.isEmpty = false
  · have hcs : check_auth_session env flows (some ad) rest ip sess st =
        (match check_auth_ensure_creds { sess with clientdict := some rest }
            (_save_session { sess with clientdict := some rest } st) with
         | (session, st3) => check_auth_dispatch env flows ad ip session rest st3) := by
      simp [check_auth_session, check_auth_step3, hrest]
    have hlk2 : alookup sid
        (_save_session { sess with clientdict := some rest } st).sessions
        = some { sess with clientdict := some rest } := by
      simp only [_save_session]
      rw [show ({ sess with clientdict := some rest } : Session).id = sid from hid]
      exact alookup_ainsert_self _ _ _
    obtain ⟨authed, payload, rest', st', heq, hiff, hcompl, hincompl⟩ :=
      check_auth_after_step3_spec env flows ad ip { sess with clientdict := some rest }
        rest (_save_session { sess with clientdict := some rest } st) sid t chk r
        hid hlk2 hty hchk hr htr
    exact ⟨authed, payload, rest', st', by rw [hca, hcs, heq], hiff, hcompl, hincompl⟩
  · cases hcd : sess.clientdict with
    | some cd0 =>
      have hcs : check_auth_session env flows (some ad) rest ip sess st =
          (match check_auth_ensure_creds sess st with
           | (session, st3) => check_auth_dispatch env flows ad ip session cd0 st3) := by
        simp [check_auth_session, check_auth_step3, hrest, hcd]
      obtain ⟨authed, payload, rest', st', heq, hiff, hcompl, hincompl⟩ :=
        check_auth_after_step3_spec env flows ad ip sess cd0 st sid t chk r
          hid hsess hty hchk hr htr
      exact ⟨authed, payload, rest', st', by rw [hca, hcs, heq], hiff, hcompl, hincompl⟩
    | none =>
      have hcs : check_auth_session env flows (some ad) rest ip sess st =
          (match check_auth_ensure_creds sess st with
           | (session, st3) => check_auth_dispatch env flows ad ip session rest st3) := by
        simp [check_auth_session, check_auth_step3, hrest, hcd]
      obtain ⟨authed, payload, rest', st', heq, hiff, hcompl, hincompl⟩ :=
        check_auth_after_step3_spec env flows ad ip sess rest st sid t chk r
          hid hsess hty hchk hr htr
      exact ⟨authed, payload, rest', st', by rw [hca, hcs, heq], hiff, hcompl, hincompl⟩

/-- C4 witness: completing the only stage of the single declared flow
(dummy, whose checker always succeeds) completes the attempt and removes the
session. -/
theorem check_auth_complete_iff_witness :
    ∃ authed payload rest' st',
      check_auth envT [[LoginType.DUMMY]] { auth := some adDummy, rest := [] } "ip" stS1 =
        some (.ok (authed, payload, rest'), st')
      ∧ ((authed = true) ↔ ∃ f ∈ [[LoginType.DUMMY]], ∀ stage ∈ f,
          (alookup stage (ainsert LoginType.DUMMY (Payload.bool true)
            (sessS1.creds.getD []))).isSome = true)
      ∧ (authed = true → payload = .credsResult (ainsert LoginType.DUMMY (Payload.bool true)
            (sessS1.creds.getD []))
          ∧ alookup ("s1") st'.sessions = none)
      ∧ (authed = false → ∃ sess', alookup ("s1") st'.sessions = some sess'
          ∧ sess'.creds = some (ainsert LoginType.DUMMY (Payload.bool true)
            (sessS1.creds.getD []))) := by
  exact check_auth_complete_iff envT [[LoginType.DUMMY]] adDummy [] "ip" stS1
    "s1" sessS1 LoginType.DUMMY _check_dummy_auth (Payload.bool true)
    rfl (by decide) (by decide) rfl rfl rfl rfl rfl

/-- C5 counterexample. The claim says an unknown stage type fails with
UnrecognizedStageError in both entry points with no session mutation before
the raise. On the code: check_auth does raise UNRECOGNIZED, but only after
persisting the non-empty remaining body onto the session and creating its
creds map (both visible in the store at the raise); and add_oob_auth rejects
the unknown stage type with MISSING_PARAM, not UNRECOGNIZED. -/
theorem unrecognized_stage_counterexample :
    check_auth envT [] { auth := some adBogus, rest := [("k", "v")] } "ip" stS1 =
      some (.error (Err.loginError 400 (String.mk []) .unrecognized), stS1saved)
    ∧ add_oob_auth envT ("bogus-stage") adBogus ("ip") stS1 =
      some (.error (Err.loginError 400 (String.mk []) .missingParam), stS1)
    ∧ Codes.missingParam ≠ Codes.unrecognized := by
  refine ⟨rfl, rfl, by decide⟩

/-- C5 amended. check_auth fails with UnrecognizedStageError on an unknown
auth type, but by the raise the resolved session has already been mutated:
its creds map exists and a non-empty remaining body has been saved onto it;
add_oob_auth rejects an unknown stage type with MissingParamError before any
session access, leaving the state untouched. -/
theorem unrecognized_stage_spec (env : Env) (flows : List (List String))
    (ad : AuthDict) (rest : List (String × String)) (ip : String) (st : St)
    (sid : String) (sess : Session) (t : String)
    (hsid : ad.session = some sid) (hne : sid ≠ (""))
    (hsess : alookup sid st.sessions = some sess) (hid : sess.id = sid)
    (hty : ad.type = some t) (hchk : checkers env t = none) :
    (∃ st', check_auth env flows { auth := some ad, rest := rest } ip st =
        some (.error (Err.loginError 400 (String.mk []) .unrecognized), st')
      ∧ ∃ sess', alookup sid st'.sessions = some sess'
          ∧ sess'.creds = some (sess.creds.getD [])
          ∧ (rest = [] → sess'.clientdict = sess.clientdict)
          ∧ (rest ≠ [] → sess'.clientdict = some rest))
    ∧ (∀ stagetype authdict clientip st0, checkers env stagetype = none →
        add_oob_auth env stagetype authdict clientip st0 =
          some (.error (Err.loginError 400 (String.mk []) .missingParam), st0)) := by
  constructor
  · have hgsi : _get_session_info st ad.session = some (sess, st) := by
      rw [hsid]
      exact get_session_info_eq_existing st sid sess hne hsess
    have hca : check_auth env flows { auth := some ad, rest := rest } ip st =
        some (check_auth_session env flows (some ad) rest ip sess st) := by
      simp [check_auth, hgsi]
    have hdisp : ∀ sess2 crest st3,
        check_auth_dispatch env flows ad ip sess2 crest st3 =
          (.error (Err.loginError 400 (String.mk []) .unrecognized), st3) := by
      intro sess2 crest st3
      simp [check_auth_dispatch, hty, hchk]
    have hensure : ∀ (sess1 : Session) (st2 : St),
        sess1.id = sid → alookup sid st2.sessions = some sess1 →
        ∃ sess2 st3, check_auth_ensure_creds sess1 st2 = (sess2, st3)
          ∧ alookup sid st3.sessions = some sess2
          ∧ sess2.creds = some (sess1.creds.getD [])
          ∧ sess2.clientdict = sess1.clientdict := by
      intro sess1 st2 hid1 hlk1
      cases hc1 : sess1.creds with
      | none =>
        refine ⟨{ sess1 with creds := some [] },
          _save_session { sess1 with creds := some [] } st2, ?_, ?_, ?_, rfl⟩
        · simp [check_auth_ensure_creds, hc1]
        · simp only [_save_session]
          rw [show ({ sess1 with creds := some [] } : Session).id = sid from hid1]
          exact alookup_ainsert_self _ _ _
        · simp [hc1]
      | some c =>
        refine ⟨sess1, st2, ?_, hlk1, ?_, rfl⟩
        · simp [check_auth_ensure_creds, hc1]
        · simp [hc1]
    by_cases hrest : rest.isEmpty = false
    · have hrne : rest ≠ [] := List.isEmpty_eq_false.mp hrest
      have hlk2 : alookup sid
          (_save_session { sess with clientdict := some rest } st).sessions
          = some { sess with clientdict := some rest } := by
        simp only [_save_session]
        rw [show ({ sess with clientdict := some rest } : Session).id = sid from hid]
        exact alookup_ainsert_self _ _ _
      obtain ⟨sess2, st3, hec, hlk3, hcr, hcd2⟩ :=
        hensure { sess with clientdict := some rest }
          (_save_session { sess with clientdict := some rest } st) hid hlk2
      refine ⟨st3, ?_, sess2, hlk3, hcr, fun h => absurd h hrne, fun _ => ?_⟩
      · rw [hca]
        have hcs : check_auth_session env flows (some ad) rest ip sess st =
            (match check_auth_ensure_creds { sess with clientdict := some rest }
                (_save_session { sess with clientdict := some rest } st) with
             | (session, st3) => check_auth_dispatch env flows ad ip session rest st3) := by
          simp [check_auth_session, check_auth_step3, hrest]
        rw [hcs, hec]
        exact congrArg some (hdisp sess2 rest st3)
      · rw [hcd2]
    · have hrnil : rest = [] := by
        revert hrest
        cases hre : rest.isEmpty
        · intro hh
          exact absurd rfl hh
        · intro _
          exact List.isEmpty_iff.mp hre
      cases hcd : sess.clientdict with
      | some cd0 =>
        obtain ⟨sess2, st3, hec, hlk3, hcr, hcd2⟩ := hensure sess st hid hsess
        refine ⟨st3, ?_, sess2, hlk3, hcr, fun _ => ?_, fun h => absurd hrnil h⟩
        · rw [hca]
          have hcs : check_auth_session env flows (some ad) rest ip sess st =
              (match check_auth_ensure_creds sess st with
               | (session, st3) => check_auth_dispatch env flows ad ip session cd0 st3) := by
            simp [check_auth_session, check_auth_step3, hrest, hcd]
          rw [hcs, hec]
          exact congrArg some (hdisp sess2 cd0 st3)
        · rw [hcd2]
          exact hcd
      | none =>
        obtain ⟨sess2, st3, hec, hlk3, hcr, hcd2⟩ := hensure sess st hid hsess
        refine ⟨st3, ?_, sess2, hlk3, hcr, fun _ => ?_, fun h => absurd hrnil h⟩
        · rw [hca]
          have hcs : check_auth_session env flows (some ad) rest ip sess st =
              (match check_auth_ensure_creds sess st with
               | (session, st3) => check_auth_dispatch env flows ad ip session rest st3) := by
            simp [check_auth_session, check_auth_step3, hrest, hcd]
          rw [hcs, hec]
          exact congrArg some (hdisp sess2 rest st3)
        · rw [hcd2]
          exact hcd
  · intro stagetype authdict clientip st0 hchk0
    simp [add_oob_auth, hchk0]

/-- C5 witness: the amended behavior at the concrete counterexample input. -/
theorem unrecognized_stage_spec_witness :
    (∃ st', check_auth envT [] { auth := some adBogus, rest := [("k", "v")] } "ip" stS1 =
        some (.error (Err.loginError 400 (String.mk []) .unrecognized), st')
      ∧ ∃ sess', alookup ("s1") st'.sessions = some sess'
          ∧ sess'.creds = some (sessS1.creds.getD [])
          ∧ ([("k", "v")] = ([] : List (String × String)) → sess'.clientdict = sessS1.clientdict)
          ∧ ([("k", "v")] ≠ ([] : List (String × String)) →
              sess'.clientdict = some [("k", "v")]))
    ∧ add_oob_auth envT ("bogus-stage") adBogus ("ip") stS1 =
        some (.error (Err.loginError 400 (String.mk []) .missingParam), stS1) := by
  have h := unrecognized_stage_spec envT [] adBogus [("k", "v")] "ip" stS1
    "s1" sessS1 ("bogus-stage") rfl (by decide) (by decide) rfl rfl rfl
  exact ⟨h.1, h.2 ("bogus-stage") adBogus ("ip") stS1 rfl⟩

/-- C6 witness: concrete malformed, wrong-key, wrong-user, unclaimed-nonce
and expired tokens all yield the uniform invalid-token error. -/
theorem short_term_token_login_invalid_witness :
    Err.loginError 403 ("Invalid token") .forbidden =
      Err.loginError 403 ("Invalid token") .forbidden
    ∧ (do_short_term_token_login envT .malformed ("@a:x") "tx" 70000 ("r") st0).1 =
      .error (Err.loginError 403 ("Invalid token") .forbidden)
    ∧ (do_short_term_token_login envT (.wellFormed mWrongKey) "@a:x" "tx" 70000 ("r") st0).1 =
      .error (Err.loginError 403 ("Invalid token") .forbidden)
    ∧ (do_short_term_token_login envT (.wellFormed mWrongUser) "@a:x" "tx" 70000 ("r") st0).1 =
      .error (Err.loginError 403 ("Invalid token") .forbidden)
    ∧ (do_short_term_token_login envT (.wellFormed mBadNonce) "@a:x" "tx" 70000 ("r") st0).1 =
      .error (Err.loginError 403 ("Invalid token") .forbidden)
    ∧ (do_short_term_token_login envT (.wellFormed mExpired) "@a:x" "tx" 70000 ("r") st0).1 =
      .error (Err.loginError 403 ("Invalid token") .forbidden) := by
  have h := short_term_token_login_invalid envT ("@a:x") "tx" 70000 ("r") st0
  refine ⟨h.1 .malformed (Err.loginError 403 ("Invalid token") .forbidden) st0 rfl,
    h.2.1,
    h.2.2.1 mWrongKey (by decide),
    h.2.2.2.1 mWrongUser ("@b:x") (by simp [mWrongUser]) (by decide),
    h.2.2.2.2.1 mBadNonce ("n9") (by simp [mBadNonce]) (by decide),
    h.2.2.2.2.2 mExpired ("50000") 50000 (by simp [mExpired]) (by decide) (by decide)⟩

end SynapseAuth
